import Mathlib

/-! NodleU1 widget: chunked DMX transfer (plugins/usbdmx/NodleU1.cpp)

A shallow embedding of the threaded and asynchronous senders and receivers of
the Nodle U1 widget. Bytes and offsets are natural numbers; where the source
stores into a narrower unsigned type the reduction modulo `2^w` is explicit.
Calls into the USB adaptor are modelled by their return codes, and every
packet handed to the adaptor is recorded together with the code it returned.
-/

namespace NodleU1

/-! ## Constants -/

/-- The number of slots of a DMX universe (ola/Constants.h). -/
def DMX_UNIVERSE_SIZE : Nat := 512

/-- The fixed size of a packet on the wire: `DATABLOCK_SIZE` in NodleU1.cpp. -/
def DATABLOCK_SIZE : Nat := 33

/-- The modulus of `unsigned int` arithmetic. -/
def UINT_MOD : Nat := 4294967296

/-! ## Raw memory -/

/-- The effect of `memcpy(dst + off, src, src.length)` on the array `dst`. -/
def memcpy (dst : List Nat) (off : Nat) (src : List Nat) : List Nat :=
  dst.take off ++ src ++ dst.drop (off + src.length)

/-- The test `memcmp(a + i, b + i, n) != 0`; `none` when the compared range
leaves one of the two arrays. -/
def memcmp_ne (a b : List Nat) (i n : Nat) : Option Bool :=
  if i + n ≤ a.length ∧ i + n ≤ b.length then
    some (decide ((a.drop i).take n ≠ (b.drop i).take n))
  else none

/-! ## DmxBuffer -/

/-- Modelled from the spec: the frame buffer class `DmxBuffer` (ola/DmxBuffer.h)
is used by NodleU1.cpp but is not part of the sources at hand. A frame is an
ordered sequence of channel bytes, index 0 first, kept in a store of
`DMX_UNIVERSE_SIZE` bytes (`data`) of which the first `length` are the
channels of the frame; it supports a blackout, a bulk ranged set, a ranged
get, a single channel set clipped to the frame, and a reset. -/
structure DmxBuffer where
  data : List Nat
  length : Nat
deriving DecidableEq, Repr

namespace DmxBuffer

/-- Source `DmxBuffer::Blackout`: every channel zero, full universe length. -/
def Blackout (_b : DmxBuffer) : DmxBuffer :=
  { data := List.replicate DMX_UNIVERSE_SIZE 0, length := DMX_UNIVERSE_SIZE }

/-- Source `DmxBuffer::Reset`: the frame is emptied, the store is kept. -/
def Reset (b : DmxBuffer) : DmxBuffer :=
  { b with length := 0 }

/-- Source `DmxBuffer::Size`. -/
def Size (b : DmxBuffer) : Nat := b.length

/-- Source `DmxBuffer::GetRaw`: the store behind the frame. -/
def GetRaw (b : DmxBuffer) : List Nat := b.data

/-- Source `DmxBuffer::SetRange(offset, src, length)`: refused when the offset lies
beyond the frame, otherwise copies up to the end of the universe and extends
the frame when the copy ends past it. -/
def SetRange (b : DmxBuffer) (offset : Nat) (src : List Nat) (length : Nat) : DmxBuffer :=
  if offset ≥ DMX_UNIVERSE_SIZE then b
  else if offset > b.length then b
  else
    let copy_length := min length (DMX_UNIVERSE_SIZE - offset)
    { data := memcpy b.data offset (src.take copy_length),
      length := max b.length (offset + copy_length) }

/-- Source `DmxBuffer::SetChannel(channel, value)`: ignored when the channel lies
beyond the frame. -/
def SetChannel (b : DmxBuffer) (channel : Nat) (value : Nat) : DmxBuffer :=
  if channel ≥ DMX_UNIVERSE_SIZE then b
  else if channel > b.length then b
  else { data := b.data.set channel value, length := max (channel + 1) b.length }

/-- Source `DmxBuffer::GetRange(slot, out, &length)`: the bytes copied out and the
updated `length`. -/
def GetRange (b : DmxBuffer) (slot : Nat) (length : Nat) : List Nat × Nat :=
  if slot ≥ b.length then ([], 0)
  else
    let n := min length (b.length - slot)
    ((b.data.drop slot).take n, n)

/-- A buffer whose store has the size of a universe and whose frame fits in it. -/
def WF (b : DmxBuffer) : Prop :=
  b.data.length = DMX_UNIVERSE_SIZE ∧ b.length ≤ DMX_UNIVERSE_SIZE

/-- The buffer holding the full frame `F`. -/
def ofFrame (F : List Nat) : DmxBuffer :=
  { data := F, length := DMX_UNIVERSE_SIZE }

end DmxBuffer

/-- The `k`-th stride of 32 channels of a frame. -/
def stride (F : List Nat) (k : Nat) : List Nat :=
  (F.drop (32 * k)).take 32

/-- The wire chunk of stride `k` of a frame: the index byte, then 32 channels. -/
def chunk (F : List Nat) (k : Nat) : List Nat :=
  k :: stride F k

/-! ## The USB adaptor -/

/-- One call of the adaptor with a packet, and the libusb code it returned. -/
structure Transfer where
  packet : List Nat
  ret : Int
deriving DecidableEq, Repr

/-! ## NodleU1ThreadedSender -/

/-- The fields of `NodleU1ThreadedSender`. -/
structure NodleU1ThreadedSender where
  m_tx_buffer : DmxBuffer
  m_last_tx_buffer : DmxBuffer
deriving DecidableEq, Repr

/-- What a pass of `TransmitBuffer` leaves behind: its return value, the
sender, and the transfers it asked of the adaptor, in order. -/
structure TxResult where
  result : Bool
  sender : NodleU1ThreadedSender
  wire : List Transfer
deriving DecidableEq, Repr

/-- How the `while` loop of `TransmitBuffer` is left: by `return false`, or by
its condition failing. -/
inductive LoopOut where
  | returned (last : DmxBuffer) (wire : List Transfer)
  | done (i : Nat) (usb_data : List Nat) (last : DmxBuffer) (wire : List Transfer)
deriving DecidableEq, Repr

namespace NodleU1ThreadedSender

/-- The constructor: both buffers are blacked out. -/
def new : NodleU1ThreadedSender :=
  { m_tx_buffer := DmxBuffer.Blackout ⟨[], 0⟩,
    m_last_tx_buffer := DmxBuffer.Blackout ⟨[], 0⟩ }

/-- Source `SendDataChunk`: one blocking interrupt transfer of `usb_data`. The
adaptor answers the `n`-th transfer of the pass with `adaptor n`. -/
def SendDataChunk (adaptor : Nat → Int) (wire : List Transfer) (usb_data : List Nat) :
    Bool × List Transfer :=
  let ret := adaptor wire.length
  (ret == 0, wire ++ [⟨usb_data, ret⟩])

/-- The `while (i < size - 32)` loop of `TransmitBuffer`, `size - 32` being an
`unsigned int` difference. `fuel` bounds the number of tests of the loop
condition; `none` stands for a read outside the stores. -/
def transmitLoop (adaptor : Nat → Int) (data : List Nat) (size : Nat) :
    Nat → Nat → List Nat → DmxBuffer → List Transfer → Option LoopOut
  | 0, _, _, _, _ => none
  | fuel + 1, i, usb_data, last, wire =>
    if i < (size + UINT_MOD - 32) % UINT_MOD then
      match memcmp_ne data last.GetRaw i 32 with
      | none => none
      | some true =>
        let usb_data1 := memcpy (usb_data.set 0 ((i / 32) % 256)) 1 ((data.drop i).take 32)
        let last1 := last.SetRange i (data.drop i) 32
        let sent := SendDataChunk adaptor wire usb_data1
        if !sent.1 then some (LoopOut.returned last1 sent.2)
        else transmitLoop adaptor data size fuel ((i + 32) % UINT_MOD) usb_data1 last1 sent.2
      | some false =>
        transmitLoop adaptor data size fuel ((i + 32) % UINT_MOD) usb_data last wire
    else some (LoopOut.done i usb_data last wire)

/-- The part of `TransmitBuffer` after the `while` loop: the last stride,
with its remainder length `size - i`, and the return value. -/
def transmitTail (adaptor : Nat → Int) (tx : DmxBuffer) : Option LoopOut → Option TxResult
  | none => none
  | some (LoopOut.returned last wire) => some ⟨false, ⟨tx, last⟩, wire⟩
  | some (LoopOut.done i usb_data last wire) =>
    let n := (tx.Size + UINT_MOD - i) % UINT_MOD
    match memcmp_ne tx.GetRaw last.GetRaw i n with
    | none => none
    | some true =>
      let usb_data1 := memcpy (usb_data.set 0 ((i / 32) % 256)) 1 ((tx.GetRaw.drop i).take n)
      let last1 := last.SetRange i (tx.GetRaw.drop i) n
      let sent := SendDataChunk adaptor wire usb_data1
      if !sent.1 then some ⟨false, ⟨tx, last1⟩, sent.2⟩
      else some ⟨true, ⟨tx, last1⟩, sent.2⟩
    | some false => some ⟨true, ⟨tx, last⟩, wire⟩

/-- Source `NodleU1ThreadedSender::TransmitBuffer`: the frame is copied into the
working buffer, the packet array is zeroed, the loop runs and the last stride
follows. The loop reads 32 bytes at `i` in every round, so within a store of
512 bytes it is left, or fails, by its 17th test. -/
def TransmitBuffer (s : NodleU1ThreadedSender) (adaptor : Nat → Int) (buffer : DmxBuffer) :
    Option TxResult :=
  transmitTail adaptor (s.m_tx_buffer.SetRange 0 buffer.GetRaw buffer.Size)
    (transmitLoop adaptor (s.m_tx_buffer.SetRange 0 buffer.GetRaw buffer.Size).GetRaw
      (s.m_tx_buffer.SetRange 0 buffer.GetRaw buffer.Size).Size
      (DMX_UNIVERSE_SIZE / 32 + 1) 0 (List.replicate DATABLOCK_SIZE 0) s.m_last_tx_buffer [])

end NodleU1ThreadedSender

/-! ## NodleU1ThreadedReceiver and NodleU1AsyncUsbReceiver -/

namespace NodleU1ThreadedReceiver

/-- Source `ReadDataChunk`: one blocking interrupt transfer on the read endpoint;
`ret` is the code returned by the adaptor. -/
def ReadDataChunk (ret : Int) : Bool :=
  ret == 0

/-- Source `NodleU1ThreadedReceiver::ReceiveBuffer`. `usb_data` is the local packet
array as the transfer left it and `ret` the code of the transfer; the result
is the return value, the buffer and `*buffer_updated`. -/
def ReceiveBuffer (ret : Int) (usb_data : List Nat) (buffer : DmxBuffer)
    (buffer_updated : Bool) : Bool × DmxBuffer × Bool :=
  if ReadDataChunk ret then
    if usb_data.getD 0 0 < 16 then
      let startOff := (usb_data.getD 0 0 * 32) % 65536
      (true,
        (List.range 32).foldl
          (fun b i => b.SetChannel (startOff + i) (usb_data.getD (i + 1) 0)) buffer,
        true)
    else (true, buffer, buffer_updated)
  else (true, buffer, buffer_updated)

end NodleU1ThreadedReceiver

namespace NodleU1AsyncUsbReceiver

/-- Source `NodleU1AsyncUsbReceiver::TransferCompleted`: the return value and the buffer. -/
def TransferCompleted (m_packet : List Nat) (buffer : DmxBuffer) : Bool × DmxBuffer :=
  if m_packet.getD 0 0 < 16 then
    let startOff := (m_packet.getD 0 0 * 32) % 65536
    (true,
      (List.range 32).foldl
        (fun b i => b.SetChannel (startOff + i) (m_packet.getD (i + 1) 0)) buffer)
  else (false, buffer)

end NodleU1AsyncUsbReceiver

/-- The receive side of a wire: `ReceiveBuffer` decodes each packet, in the
order of transmission and with every read succeeding, into the buffer. -/
def decodeWire (wire : List Transfer) (buffer : DmxBuffer) : DmxBuffer :=
  wire.foldl (fun b t => (NodleU1ThreadedReceiver.ReceiveBuffer 0 t.packet b false).2.1) buffer

/-! ### A reference description of one pass over a full frame -/

/-- The store of the shadow once the strides below `k` have been brought up
to the frame `F`: `F` below channel `32 * k`, the old shadow `L` from there on. -/
def mix (F L : List Nat) (k : Nat) : List Nat :=
  F.take (32 * k) ++ L.drop (32 * k)

/-- The progress of a pass: whether no transfer has failed, the number of
strides dealt with, the packet array, and the transfers so far. -/
structure PassState where
  ok : Bool
  k : Nat
  usb : List Nat
  wire : List Transfer
deriving DecidableEq, Repr

/-- The pass described stride by stride: `n` more strides are examined from
stride `j` on; a stride that differs from the shadow is sent, and the pass
stops at the first transfer that fails. -/
def passSpec (adaptor : Nat → Int) (F L : List Nat) :
    Nat → Nat → List Nat → List Transfer → PassState
  | 0, j, usb, w => ⟨true, j, usb, w⟩
  | n + 1, j, usb, w =>
    if stride F j ≠ stride L j then
      if adaptor w.length = 0 then
        passSpec adaptor F L n (j + 1) (chunk F j) (w ++ [⟨chunk F j, 0⟩])
      else ⟨false, j + 1, chunk F j, w ++ [⟨chunk F j, adaptor w.length⟩]⟩
    else passSpec adaptor F L n (j + 1) usb w

/-- The strides sent by a pass in which no transfer fails. -/
def sentStrides (F L : List Nat) (j n : Nat) : List Nat :=
  (List.range' j n).filter (fun k => decide (stride F k ≠ stride L k))

/-! ## NodleU1AsyncUsbSender -/

/-- The fields of `NodleU1AsyncUsbSender` that its transfer logic uses. -/
structure NodleU1AsyncUsbSender where
  m_tx_buffer : DmxBuffer
  m_buffer_offset : Nat
  m_packet : List Nat
deriving DecidableEq, Repr

/-- The effect of `memset(dst + off, value, n)` on the array `dst`. -/
def memset (dst : List Nat) (off : Nat) (value : Nat) (n : Nat) : List Nat :=
  memcpy dst off (List.replicate n value)

namespace NodleU1AsyncUsbSender

/-- The constructor followed by `SetupHandle`: the working buffer is blacked
out, the offset is 0, and `m_packet` is a fresh array of `DATABLOCK_SIZE`
bytes with whatever content `packet` it comes with. -/
def new (packet : List Nat) : NodleU1AsyncUsbSender :=
  { m_tx_buffer := DmxBuffer.Blackout ⟨[], 0⟩, m_buffer_offset := 0, m_packet := packet }

/-- Source `SendChunk`: the transfer is filled with `m_packet` and submitted; `ret`
is what `SubmitTransfer` returns, and the result is `ret == 0`. -/
def SendChunk (s : NodleU1AsyncUsbSender) (ret : Int) : Bool × List Transfer :=
  (ret == 0, [⟨s.m_packet, ret⟩])

/-- Source `NodleU1AsyncUsbSender::ContinueTransfer`. Its return value is
`SendChunk() == 0`, the comparison of a `bool` with 0. -/
def ContinueTransfer (s : NodleU1AsyncUsbSender) (ret : Int) :
    Bool × NodleU1AsyncUsbSender × List Transfer :=
  let p1 := s.m_packet.set 0 ((s.m_buffer_offset / 32) % 256)
  let got := s.m_tx_buffer.GetRange s.m_buffer_offset 32
  let p2 := memcpy p1 1 got.1
  let p3 := memset p2 (1 + got.2) 0 (32 - got.2)
  let s1 : NodleU1AsyncUsbSender :=
    { s with m_packet := p3, m_buffer_offset := (s.m_buffer_offset + got.2) % UINT_MOD }
  let sent := SendChunk s1 ret
  (sent.1 == false, s1, sent.2)

/-- Source `NodleU1AsyncUsbSender::SendInitialChunk`. -/
def SendInitialChunk (s : NodleU1AsyncUsbSender) (buffer : DmxBuffer) (ret : Int) :
    Bool × NodleU1AsyncUsbSender × List Transfer :=
  let tx := s.m_tx_buffer.SetRange 0 buffer.GetRaw buffer.Size
  let p1 := s.m_packet.set 0 0
  let got := tx.GetRange 0 32
  let p2 := memcpy p1 1 got.1
  let p3 := memset p2 (1 + got.2) 0 (32 - got.2)
  let slots_sent := got.2
  let s1 : NodleU1AsyncUsbSender :=
    { m_tx_buffer := tx,
      m_buffer_offset := if slots_sent < tx.Size then slots_sent else s.m_buffer_offset,
      m_packet := p3 }
  let sent := SendChunk s1 ret
  (sent.1 == false, s1, sent.2)

/-- Source `NodleU1AsyncUsbSender::PerformTransfer`. -/
def PerformTransfer (s : NodleU1AsyncUsbSender) (buffer : DmxBuffer) (ret : Int) :
    Bool × NodleU1AsyncUsbSender × List Transfer :=
  if s.m_buffer_offset = 0 then SendInitialChunk s buffer ret
  else (true, s, [])

/-- Source `NodleU1AsyncUsbSender::PostTransferHook`. `pending` is what
`TransferPending()` of the base class answers and `ret` what
`SubmitTransfer` would return. -/
def PostTransferHook (s : NodleU1AsyncUsbSender) (pending : Bool) (ret : Int) :
    NodleU1AsyncUsbSender × List Transfer :=
  if s.m_buffer_offset < s.m_tx_buffer.Size then
    ((ContinueTransfer s ret).2.1, (ContinueTransfer s ret).2.2)
  else if s.m_buffer_offset ≥ s.m_tx_buffer.Size then
    if pending then
      ({ s with m_buffer_offset := 0, m_tx_buffer := s.m_tx_buffer.Reset }, [])
    else ({ s with m_buffer_offset := 0 }, [])
  else (s, [])

/-- A run of completions: `PostTransferHook` is called once for each entry,
with that answer of `TransferPending()` and that code of `SubmitTransfer`;
the transfers handed to the adaptor are collected in order. -/
def runHooks (s : NodleU1AsyncUsbSender) :
    List (Bool × Int) → NodleU1AsyncUsbSender × List Transfer
  | [] => (s, [])
  | h :: rest =>
    ((runHooks (PostTransferHook s h.1 h.2).1 rest).1,
      (PostTransferHook s h.1 h.2).2 ++ (runHooks (PostTransferHook s h.1 h.2).1 rest).2)

end NodleU1AsyncUsbSender

/-- The number of transfers of a wire that the adaptor accepted. -/
def accepted (wire : List Transfer) : Nat :=
  (wire.filter (fun t => t.ret == 0)).length

/-- The asynchronous sender together with the number of its transfers that
are submitted and not yet completed. -/
structure AsyncMachine where
  sender : NodleU1AsyncUsbSender
  outstanding : Nat
deriving DecidableEq, Repr

/-- The events of the asynchronous sender: a request (`PerformTransfer` with
a frame) and the completion of an outstanding transfer (`PostTransferHook`);
each carries the answers of the environment during the call. -/
inductive AsyncEvent where
  | request (buffer : DmxBuffer) (ret : Int)
  | completion (pending : Bool) (ret : Int)
deriving DecidableEq, Repr

namespace AsyncMachine

/-- The initial state: a fresh sender, no transfer outstanding. -/
def init (packet : List Nat) : AsyncMachine :=
  { sender := NodleU1AsyncUsbSender.new packet, outstanding := 0 }

/-- One event. A completion needs an outstanding transfer. -/
def step (m : AsyncMachine) : AsyncEvent → Option AsyncMachine
  | AsyncEvent.request buffer ret =>
    some { sender := (m.sender.PerformTransfer buffer ret).2.1,
           outstanding := m.outstanding + accepted (m.sender.PerformTransfer buffer ret).2.2 }
  | AsyncEvent.completion pending ret =>
    if m.outstanding = 0 then none
    else
      some { sender := (m.sender.PostTransferHook pending ret).1,
             outstanding :=
               m.outstanding - 1 + accepted (m.sender.PostTransferHook pending ret).2 }

/-- A sequence of events, from left to right. -/
def run (m : AsyncMachine) : List AsyncEvent → Option AsyncMachine
  | [] => some m
  | e :: rest =>
    match m.step e with
    | none => none
    | some m1 => run m1 rest

end AsyncMachine

/-- The adaptor under which every transfer succeeds. -/
def allOk : Nat → Int := fun _ => 0

/-- The adaptor whose first transfer fails with `LIBUSB_ERROR_IO` and whose
later transfers succeed. -/
def firstFails : Nat → Int := fun n => if n = 0 then -1 else 0

/-- The frame with channel 0 at 255 and every other channel at 0. -/
def frame255 : List Nat := 255 :: List.replicate 511 0

/-- The blacked-out frame. -/
def blackout : List Nat := List.replicate 512 0

/-- The libusb code `LIBUSB_ERROR_NOT_FOUND` (libusb.h). -/
def LIBUSB_ERROR_NOT_FOUND : Int := -5

/-- The write endpoint, `WRITE_ENDPOINT` in NodleU1.cpp. -/
def WRITE_ENDPOINT : Nat := 2

/-- The transfer timeout, `URB_TIMEOUT_MS` in NodleU1.cpp. -/
def URB_TIMEOUT_MS : Nat := 50

/-- The configuration selected, `CONFIGURATION` in NodleU1.cpp. -/
def CONFIGURATION : Int := 1

/-- The interface claimed, `INTERFACE` in NodleU1.cpp. -/
def INTERFACE : Int := 0

/-- One call of `InterruptTransfer` with all its arguments, and the code it
returned. -/
structure InterruptCall where
  endpoint : Nat
  data : List Nat
  length : Nat
  timeout : Nat
  ret : Int
deriving DecidableEq, Repr

/-- Source `SetInterfaceMode`: the packet array is zeroed, byte 0 is 16 and
byte 1 the mode, a `uint8_t`; `ret` is the code of the transfer. The result
is the return value and the transfer asked of the adaptor. -/
def SetInterfaceMode (mode : Nat) (ret : Int) : Bool × List InterruptCall :=
  let usb_data := ((List.replicate DATABLOCK_SIZE 0).set 0 16).set 1 (mode % 256)
  (ret == 0, [⟨WRITE_ENDPOINT, usb_data, DATABLOCK_SIZE, URB_TIMEOUT_MS, ret⟩])

/-- The calls `OpenNodleU1Widget` makes on the adaptor. -/
inductive AdaptorCall where
  | OpenDevice
  | DetachKernelDriver (interface : Int)
  | SetConfiguration (configuration : Int)
  | ClaimInterface (interface : Int)
  | Close
deriving DecidableEq, Repr

/-- What the adaptor answers to the calls of `OpenNodleU1Widget`, when they
are made: whether `OpenDevice` succeeds and the handle it yields, and the
codes of `DetachKernelDriver`, `SetConfiguration` and `ClaimInterface`. -/
structure WidgetAnswers where
  openOk : Bool
  usb_handle : Nat
  detach : Int
  setConfiguration : Int
  claim : Int
deriving DecidableEq, Repr

/-- Source `OpenNodleU1Widget`: the handle, or `none` for NULL, and the calls
made on the adaptor in order. -/
def OpenNodleU1Widget (a : WidgetAnswers) : Option Nat × List AdaptorCall :=
  if !a.openOk then
    (none, [AdaptorCall.OpenDevice])
  else if a.detach ≠ 0 ∧ a.detach ≠ LIBUSB_ERROR_NOT_FOUND then
    (none, [AdaptorCall.OpenDevice, AdaptorCall.DetachKernelDriver INTERFACE,
      AdaptorCall.Close])
  else if a.setConfiguration ≠ 0 then
    (none, [AdaptorCall.OpenDevice, AdaptorCall.DetachKernelDriver INTERFACE,
      AdaptorCall.SetConfiguration CONFIGURATION, AdaptorCall.Close])
  else if a.claim ≠ 0 then
    (none, [AdaptorCall.OpenDevice, AdaptorCall.DetachKernelDriver INTERFACE,
      AdaptorCall.SetConfiguration CONFIGURATION, AdaptorCall.ClaimInterface INTERFACE,
      AdaptorCall.Close])
  else
    (some a.usb_handle, [AdaptorCall.OpenDevice, AdaptorCall.DetachKernelDriver INTERFACE,
      AdaptorCall.SetConfiguration CONFIGURATION, AdaptorCall.ClaimInterface INTERFACE])

/-! ## SynchronousNodleU1 and AsynchronousNodleU1 -/

/-- The receiver object of the threaded variant: the handle it reads from. -/
structure ThreadedReceiver where
  m_usb_handle : Nat
deriving DecidableEq, Repr

/-- The fields of `SynchronousNodleU1`: the mode and the two owned
components, `none` while unset. -/
structure SynchronousNodleU1 where
  m_mode : Nat
  m_sender : Option NodleU1ThreadedSender
  m_receiver : Option ThreadedReceiver
deriving DecidableEq, Repr

namespace SynchronousNodleU1

/-- The constructor: no component yet. -/
def new (mode : Nat) : SynchronousNodleU1 :=
  { m_mode := mode, m_sender := none, m_receiver := none }

/-- Source `SynchronousNodleU1::Init`. `a` holds the answers of the adaptor
to `OpenNodleU1Widget`, `modeRet` the code of the mode-select transfer, and
`senderStart`, `receiverStart` what `Start()` of the base class returns for
the sender and the receiver when it is called. The result is the return
value, the object, and the mode-select transfer when one was made. -/
def Init (w : SynchronousNodleU1) (a : WidgetAnswers) (modeRet : Int)
    (senderStart receiverStart : Bool) : Bool × SynchronousNodleU1 × List InterruptCall :=
  match (OpenNodleU1Widget a).1 with
  | none => (false, w, [])
  | some usb_handle =>
    let mode_set := SetInterfaceMode w.m_mode modeRet
    if w.m_mode &&& 2 ≠ 0 then
      if !senderStart then (false, w, mode_set.2)
      else if w.m_mode &&& 4 ≠ 0 then
        if !receiverStart then
          (false, { w with m_sender := some NodleU1ThreadedSender.new }, mode_set.2)
        else
          (true, { w with m_sender := some NodleU1ThreadedSender.new,
                          m_receiver := some ⟨usb_handle⟩ }, mode_set.2)
      else (true, { w with m_sender := some NodleU1ThreadedSender.new }, mode_set.2)
    else if w.m_mode &&& 4 ≠ 0 then
      if !receiverStart then (false, w, mode_set.2)
      else (true, { w with m_receiver := some ⟨usb_handle⟩ }, mode_set.2)
    else (true, w, mode_set.2)

/-- Source `SynchronousNodleU1::SendDMX`; `senderSendDMX` is `SendDMX` of the
sender's base class: its return value and its effect on the sender. -/
def SendDMX (w : SynchronousNodleU1)
    (senderSendDMX : NodleU1ThreadedSender → DmxBuffer → Bool × NodleU1ThreadedSender)
    (buffer : DmxBuffer) : Bool × SynchronousNodleU1 :=
  match w.m_sender with
  | some s => ((senderSendDMX s buffer).1, { w with m_sender := some (senderSendDMX s buffer).2 })
  | none => (false, w)

end SynchronousNodleU1

/-- The fields of `NodleU1AsyncUsbReceiver`. -/
structure AsyncReceiver where
  m_mode : Nat
  m_packet : List Nat
deriving DecidableEq, Repr

/-- The fields of `AsynchronousNodleU1`. -/
structure AsynchronousNodleU1 where
  m_mode : Nat
  m_sender : Option NodleU1AsyncUsbSender
  m_receiver : Option AsyncReceiver
deriving DecidableEq, Repr

namespace AsynchronousNodleU1

/-- The constructor of `AsynchronousNodleU1`. A sender is constructed with
`m_packet` NULL (here the empty array), a receiver with a fresh packet array
of content `packet`. -/
def new (mode : Nat) (packet : List Nat) : AsynchronousNodleU1 :=
  { m_mode := mode,
    m_sender := if mode &&& 2 ≠ 0 then some (NodleU1AsyncUsbSender.new []) else none,
    m_receiver := if mode &&& 4 ≠ 0 then some ⟨mode, packet⟩ else none }

/-- Source `AsynchronousNodleU1::SendDMX`; `senderSendDMX` is `SendDMX` of the
sender's base class. -/
def SendDMX (w : AsynchronousNodleU1)
    (senderSendDMX : NodleU1AsyncUsbSender → DmxBuffer → Bool × NodleU1AsyncUsbSender)
    (buffer : DmxBuffer) : Bool × AsynchronousNodleU1 :=
  match w.m_sender with
  | some s => ((senderSendDMX s buffer).1, { w with m_sender := some (senderSendDMX s buffer).2 })
  | none => (false, w)

end AsynchronousNodleU1

/-- Answers of an adaptor on which every step of the bring-up succeeds. -/
def goodAnswers : WidgetAnswers :=
  { openOk := true, usb_handle := 1, detach := 0, setConfiguration := 0, claim := 0 }

/-- The frame with every channel at 10. -/
def frameA : List Nat := List.replicate 512 10

/-- The frame with every channel at 20. -/
def frameB : List Nat := List.replicate 512 20

/-- A frame of a single channel. -/
def shortFrame : DmxBuffer := { data := 7 :: List.replicate 511 0, length := 1 }

/-- The asynchronous sender at the end of a first cycle whose last completion
found a send pending: the working frame has been reset. -/
def afterResetSender : NodleU1AsyncUsbSender :=
  (((NodleU1AsyncUsbSender.new (List.replicate 33 0)).PerformTransfer
      (DmxBuffer.ofFrame blackout) 0).2.1.runHooks
    (List.replicate 15 (false, 0) ++ [(true, 0)])).1

/-- The asynchronous sender once the last chunk of the frame of all 10 has
been submitted: the offset has reached the length of the working frame. -/
def endOfCycleSender : NodleU1AsyncUsbSender :=
  { m_tx_buffer := DmxBuffer.ofFrame frameA, m_buffer_offset := 512,
    m_packet := chunk frameA 15 }

/-- The asynchronous sender in the middle of a cycle over a working frame of
40 channels, its first chunk just completed. -/
def shortCycleSender : NodleU1AsyncUsbSender :=
  { m_tx_buffer := { data := frameA, length := 40 }, m_buffer_offset := 32,
    m_packet := chunk frameA 0 }

/-- The threaded senders that exist: the constructed one, and what a pass of
`TransmitBuffer` with a well-formed input frame leaves, whatever the adaptor
answers. -/
inductive NodleU1ThreadedSender.Reachable : NodleU1ThreadedSender → Prop where
  | new : NodleU1ThreadedSender.Reachable NodleU1ThreadedSender.new
  | pass (s : NodleU1ThreadedSender) (adaptor : Nat → Int) (buffer : DmxBuffer) (r : TxResult) :
      NodleU1ThreadedSender.Reachable s → buffer.WF →
      s.TransmitBuffer adaptor buffer = some r → NodleU1ThreadedSender.Reachable r.sender

/-- What the transfer logic of the asynchronous sender keeps true: the store
of the working frame has 512 bytes and the frame fits in it, the packet
array has 33 bytes, and the offset is a multiple of 32 unless it has reached
the length of the working frame. -/
def AsyncInv (s : NodleU1AsyncUsbSender) : Prop :=
  s.m_tx_buffer.data.length = 512 ∧ s.m_tx_buffer.length ≤ 512 ∧ s.m_packet.length = 33
    ∧ (s.m_buffer_offset % 32 = 0 ∨ s.m_tx_buffer.length ≤ s.m_buffer_offset)

set_option maxRecDepth 100000

/-! ## Lists and strides -/

theorem stride_length (F : List Nat) (k : Nat) (h : 32 * k + 32 ≤ F.length) :
    (stride F k).length = 32 := by
  simp [stride]; omega

theorem chunk_length (F : List Nat) (k : Nat) (h : 32 * k + 32 ≤ F.length) :
    (chunk F k).length = 33 := by
  simp [chunk, stride_length F k h]

theorem mix_length (F L : List Nat) (k : Nat) (hF : F.length = 512) (hL : L.length = 512)
    (hk : k ≤ 16) : (mix F L k).length = 512 := by
  simp [mix, hF, hL]; omega

theorem stride_mix_ge (F L : List Nat) (j k : Nat) (hF : F.length = 512) (hj : j ≤ 16)
    (hk : j ≤ k) : stride (mix F L j) k = stride L k := by
  unfold stride mix
  have h1 : (List.take (32 * j) F).length = 32 * j := by simp [hF]; omega
  have h2 : 32 * k = (List.take (32 * j) F).length + (32 * k - 32 * j) := by omega
  rw [h2, List.drop_append, List.drop_drop, h1]

theorem stride_mix_lt (F L : List Nat) (j k : Nat) (hF : F.length = 512) (hj : j ≤ 16)
    (hk : k < j) : stride (mix F L j) k = stride F k := by
  unfold stride mix
  apply List.ext_getElem?
  intro n
  simp only [List.getElem?_take, List.getElem?_drop, List.getElem?_append]
  by_cases hn : n < 32
  · simp [hn, hF]
    have : 32 * k + n < 32 * j := by omega
    simp [this]
    intro h; omega
  · simp [hn]

theorem mix_step_eq (F L : List Nat) (j : Nat)
    (h : stride F j = stride L j) : mix F L (j + 1) = mix F L j := by
  unfold mix
  have e1 : List.take (32 * (j + 1)) F = List.take (32 * j) F ++ stride F j := by
    rw [show 32 * (j + 1) = 32 * j + 32 by ring, List.take_add]; rfl
  have e2 : List.drop (32 * j) L = stride L j ++ List.drop (32 * (j + 1)) L := by
    rw [show 32 * (j + 1) = 32 * j + 32 by ring, ← List.drop_drop]
    exact (List.take_append_drop 32 _).symm
  rw [e1, e2, h, List.append_assoc]

/-! ## One stride of the threaded sender -/

open NodleU1ThreadedSender

theorem memcmp_ne_mix (F L : List Nat) (j : Nat) (hF : F.length = 512) (hL : L.length = 512)
    (hj : j ≤ 15) :
    memcmp_ne F (mix F L j) (32 * j) 32 = some (decide (stride F j ≠ stride L j)) := by
  have hm := mix_length F L j hF hL (by omega)
  have hs := stride_mix_ge F L j j hF (by omega) (le_refl j)
  unfold stride at hs
  unfold memcmp_ne
  rw [if_pos (by rw [hF, hm]; omega), hs]
  rfl

theorem setRange_mix (F L : List Nat) (j : Nat) (hF : F.length = 512) (hj : j ≤ 15) :
    DmxBuffer.SetRange ⟨mix F L j, 512⟩ (32 * j) (F.drop (32 * j)) 32
      = ⟨mix F L (j + 1), 512⟩ := by
  unfold DmxBuffer.SetRange
  simp only [DMX_UNIVERSE_SIZE]
  rw [if_neg (by omega), if_neg (by omega)]
  have hmin : min 32 (512 - 32 * j) = 32 := by omega
  have hlen : ((F.drop (32 * j)).take 32).length = 32 := by simp [hF]; omega
  rw [hmin]
  congr 1
  · unfold memcpy
    rw [hlen]
    unfold mix
    have h1 : (List.take (32 * j) F).length = 32 * j := by simp [hF]; omega
    have h2 : 32 * j + 32 = (List.take (32 * j) F).length + 32 := by omega
    rw [List.take_left' h1, h2, List.drop_append, List.drop_drop,
      show 32 * (j + 1) = 32 * j + 32 by ring, List.take_add]
  · omega

theorem memcpy_packet (usb p : List Nat) (v : Nat) (hu : usb.length = 33)
    (hp : p.length = 32) : memcpy (usb.set 0 v) 1 p = v :: p := by
  match usb, hu with
  | u :: rest, hu =>
    have hr : rest.length = 32 := by simpa using hu
    simp [memcpy, hp, hr]

theorem passSpec_usb_length (adaptor : Nat → Int) (F L : List Nat) (hF : F.length = 512) :
    ∀ n j usb w, j + n ≤ 16 → usb.length = 33 →
      (passSpec adaptor F L n j usb w).usb.length = 33 := by
  intro n
  induction n with
  | zero => intro j usb w _ hu; simpa [passSpec] using hu
  | succ n ih =>
    intro j usb w hj hu
    have hc : (chunk F j).length = 33 := chunk_length F j (by omega)
    unfold passSpec
    split
    · split
      · exact ih _ _ _ (by omega) hc
      · exact hc
    · exact ih _ _ _ (by omega) hu

theorem passSpec_k (adaptor : Nat → Int) (F L : List Nat) :
    ∀ n j usb w, (passSpec adaptor F L n j usb w).ok = true →
      (passSpec adaptor F L n j usb w).k = j + n := by
  intro n
  induction n with
  | zero => intro j usb w _; rfl
  | succ n ih =>
    intro j usb w
    unfold passSpec
    split
    · split
      · intro h; rw [ih _ _ _ h]; omega
      · intro h; simp at h
    · intro h; rw [ih _ _ _ h]; omega

theorem passSpec_same (adaptor : Nat → Int) (F L : List Nat) (n j : Nat) (usb : List Nat)
    (w : List Transfer) (h : stride F j = stride L j) :
    passSpec adaptor F L (n + 1) j usb w = passSpec adaptor F L n (j + 1) usb w := by
  simp [passSpec, h]

theorem passSpec_sent (adaptor : Nat → Int) (F L : List Nat) (n j : Nat) (usb : List Nat)
    (w : List Transfer) (h : stride F j ≠ stride L j) (ha : adaptor w.length = 0) :
    passSpec adaptor F L (n + 1) j usb w
      = passSpec adaptor F L n (j + 1) (chunk F j) (w ++ [⟨chunk F j, 0⟩]) := by
  simp [passSpec, h, ha]

theorem passSpec_failed (adaptor : Nat → Int) (F L : List Nat) (n j : Nat) (usb : List Nat)
    (w : List Transfer) (h : stride F j ≠ stride L j) (ha : adaptor w.length ≠ 0) :
    passSpec adaptor F L (n + 1) j usb w
      = ⟨false, j + 1, chunk F j, w ++ [⟨chunk F j, adaptor w.length⟩]⟩ := by
  simp [passSpec, h, ha]

/-- The loop of `TransmitBuffer` over a full frame follows `passSpec`. -/
theorem transmitLoop_eq (adaptor : Nat → Int) (F L : List Nat) (hF : F.length = 512)
    (hL : L.length = 512) :
    ∀ n j usb w fuel, j + n = 15 → usb.length = 33 → n < fuel →
      transmitLoop adaptor F 512 fuel (32 * j) usb ⟨mix F L j, 512⟩ w
        = some (if (passSpec adaptor F L n j usb w).ok then
            LoopOut.done 480 (passSpec adaptor F L n j usb w).usb
              ⟨mix F L 15, 512⟩ (passSpec adaptor F L n j usb w).wire
          else
            LoopOut.returned ⟨mix F L (passSpec adaptor F L n j usb w).k, 512⟩
              (passSpec adaptor F L n j usb w).wire) := by
  intro n
  induction n with
  | zero =>
    intro j usb w fuel hj hu hfuel
    have hj15 : j = 15 := by omega
    subst hj15
    match fuel, hfuel with
    | fuel + 1, _ =>
      simp [transmitLoop, passSpec, UINT_MOD]
  | succ n ih =>
    intro j usb w fuel hj hu hfuel
    match fuel, hfuel with
    | fuel + 1, hfuel =>
      have hlt : 32 * j < (512 + UINT_MOD - 32) % UINT_MOD := by
        simp [UINT_MOD]; omega
      have hnext : (32 * j + 32) % UINT_MOD = 32 * (j + 1) := by
        simp [UINT_MOD]; omega
      have hidx : 32 * j / 32 % 256 = j := by omega
      have hsl : ((F.drop (32 * j)).take 32).length = 32 := by simp [hF]; omega
      have hc : (chunk F j).length = 33 := chunk_length F j (by omega)
      have hpk : memcpy (usb.set 0 j) 1 ((F.drop (32 * j)).take 32) = chunk F j :=
        memcpy_packet usb _ j hu hsl
      rw [transmitLoop, if_pos hlt]
      simp only [DmxBuffer.GetRaw]
      rw [memcmp_ne_mix F L j hF hL (by omega), hnext, hidx, hpk,
        setRange_mix F L j hF (by omega)]
      by_cases hd : stride F j = stride L j
      · simp only [hd, ne_eq, not_true_eq_false, decide_False]
        rw [← mix_step_eq F L j hd, ih (j + 1) usb w fuel (by omega) hu (by omega),
          passSpec_same adaptor F L n j usb w hd]
      · simp only [hd, ne_eq, not_false_eq_true, decide_True]
        by_cases ha : adaptor w.length = 0
        · rw [passSpec_sent adaptor F L n j usb w hd ha]
          simp only [SendDataChunk, ha, beq_self_eq_true, Bool.not_true, Bool.false_eq_true,
            if_false]
          exact ih (j + 1) (chunk F j) (w ++ [⟨chunk F j, 0⟩]) fuel (by omega) hc (by omega)
        · rw [passSpec_failed adaptor F L n j usb w hd ha]
          simp [SendDataChunk, ha]

theorem passSpec_append (adaptor : Nat → Int) (F L : List Nat) (m : Nat) :
    ∀ n j usb w, passSpec adaptor F L (n + m) j usb w
      = if (passSpec adaptor F L n j usb w).ok then
          passSpec adaptor F L m (j + n) (passSpec adaptor F L n j usb w).usb
            (passSpec adaptor F L n j usb w).wire
        else passSpec adaptor F L n j usb w := by
  intro n
  induction n with
  | zero => intro j usb w; simp [passSpec]
  | succ n ih =>
    intro j usb w
    rw [show n + 1 + m = (n + m) + 1 by ring]
    by_cases hd : stride F j = stride L j
    · rw [passSpec_same _ _ _ _ _ _ _ hd, passSpec_same _ _ _ _ _ _ _ hd, ih,
        show j + 1 + n = j + (n + 1) by ring]
    · by_cases ha : adaptor w.length = 0
      · rw [passSpec_sent _ _ _ _ _ _ _ hd ha, passSpec_sent _ _ _ _ _ _ _ hd ha, ih,
          show j + 1 + n = j + (n + 1) by ring]
      · rw [passSpec_failed _ _ _ _ _ _ _ hd ha, passSpec_failed _ _ _ _ _ _ _ hd ha]
        simp

/-- The last stride of a pass over a full frame is one more step of `passSpec`. -/
theorem transmitTail_eq (adaptor : Nat → Int) (F L : List Nat) (hF : F.length = 512)
    (hL : L.length = 512) (r : PassState) (hu : r.usb.length = 33) :
    transmitTail adaptor ⟨F, 512⟩
        (some (if r.ok then LoopOut.done 480 r.usb ⟨mix F L 15, 512⟩ r.wire
          else LoopOut.returned ⟨mix F L r.k, 512⟩ r.wire))
      = some ⟨(if r.ok then passSpec adaptor F L 1 15 r.usb r.wire else r).ok,
          ⟨⟨F, 512⟩, ⟨mix F L (if r.ok then passSpec adaptor F L 1 15 r.usb r.wire else r).k, 512⟩⟩,
          (if r.ok then passSpec adaptor F L 1 15 r.usb r.wire else r).wire⟩ := by
  by_cases hok : r.ok = true
  · have hsz : DmxBuffer.Size ⟨F, 512⟩ = 512 := rfl
    have hn : (512 + UINT_MOD - 480) % UINT_MOD = 32 := by simp [UINT_MOD]
    have hsl : ((F.drop (32 * 15)).take 32).length = 32 := by simp [hF]
    have hpk : memcpy (r.usb.set 0 15) 1 ((F.drop (32 * 15)).take 32) = chunk F 15 :=
      memcpy_packet r.usb _ 15 hu hsl
    have hcmp := memcmp_ne_mix F L 15 hF hL (le_refl 15)
    have hset := setRange_mix F L 15 hF (le_refl 15)
    simp only [Nat.reduceMul, Nat.reduceAdd] at hpk hcmp hset
    rw [if_pos hok, transmitTail, hsz, hn]
    simp only [DmxBuffer.GetRaw]
    rw [hcmp, show (480 / 32 % 256 : Nat) = 15 from rfl, hpk, hset]
    by_cases hd : stride F 15 = stride L 15
    · rw [passSpec_same _ _ _ _ _ _ _ hd]
      have hm : mix F L 16 = mix F L 15 := mix_step_eq F L 15 hd
      simp [hd, passSpec, hok, hm]
    · by_cases ha : adaptor r.wire.length = 0
      · rw [passSpec_sent _ _ _ _ _ _ _ hd ha]
        simp [hd, passSpec, SendDataChunk, ha, hok]
      · rw [passSpec_failed _ _ _ _ _ _ _ hd ha]
        simp [hd, SendDataChunk, ha, hok]
  · rw [if_neg hok]
    simp at hok
    simp [transmitTail, hok]

/-- A pass of `TransmitBuffer` whose working frame is the full frame `F` and
whose shadow is the full frame `L` follows `passSpec` over all 16 strides. -/
theorem TransmitBuffer_eq (s : NodleU1ThreadedSender) (adaptor : Nat → Int)
    (buffer : DmxBuffer) (F L : List Nat) (hF : F.length = 512) (hL : L.length = 512)
    (htx : s.m_tx_buffer.SetRange 0 buffer.GetRaw buffer.Size = ⟨F, 512⟩)
    (hlast : s.m_last_tx_buffer = ⟨L, 512⟩) :
    TransmitBuffer s adaptor buffer
      = some ⟨(passSpec adaptor F L 16 0 (List.replicate DATABLOCK_SIZE 0) []).ok,
          ⟨⟨F, 512⟩,
            ⟨mix F L (passSpec adaptor F L 16 0 (List.replicate DATABLOCK_SIZE 0) []).k, 512⟩⟩,
          (passSpec adaptor F L 16 0 (List.replicate DATABLOCK_SIZE 0) []).wire⟩ := by
  have hloop := transmitLoop_eq adaptor F L hF hL 15 0 (List.replicate DATABLOCK_SIZE 0) []
    (DMX_UNIVERSE_SIZE / 32 + 1) (by omega) (by simp [DATABLOCK_SIZE])
    (by simp [DMX_UNIVERSE_SIZE])
  have hmix0 : mix F L 0 = L := by simp [mix]
  rw [hmix0, Nat.mul_zero] at hloop
  have happ := passSpec_append adaptor F L 1 15 0 (List.replicate DATABLOCK_SIZE 0) []
  have hu := passSpec_usb_length adaptor F L hF 15 0 (List.replicate DATABLOCK_SIZE 0) []
    (by omega) (by simp [DATABLOCK_SIZE])
  rw [Nat.zero_add] at happ
  have htail := transmitTail_eq adaptor F L hF hL _ hu
  rw [← happ] at htail
  rw [TransmitBuffer, htx, hlast]
  simp only [DmxBuffer.Size, DmxBuffer.GetRaw]
  rw [hloop]
  exact htail

/-- Writing a full frame over a well-formed working buffer yields that frame. -/
theorem setRange_full (T : DmxBuffer) (F : List Nat) (hT : T.WF) (hF : F.length = 512) :
    T.SetRange 0 (DmxBuffer.ofFrame F).GetRaw (DmxBuffer.ofFrame F).Size
      = ⟨F, 512⟩ := by
  obtain ⟨h1, h2⟩ := hT
  simp only [DMX_UNIVERSE_SIZE] at h1 h2
  simp only [DmxBuffer.SetRange, DmxBuffer.ofFrame, DmxBuffer.GetRaw, DmxBuffer.Size,
    DMX_UNIVERSE_SIZE, memcpy]
  simp [hF, h1, show F.take 512 = F from by rw [← hF, List.take_length]]
  omega

theorem passSpec_allOk (adaptor : Nat → Int) (F L : List Nat) (h : ∀ n, adaptor n = 0) :
    ∀ n j usb w, (passSpec adaptor F L n j usb w).ok = true
      ∧ (passSpec adaptor F L n j usb w).wire
        = w ++ (sentStrides F L j n).map (fun k => ⟨chunk F k, 0⟩) := by
  intro n
  induction n with
  | zero => intro j usb w; simp [passSpec, sentStrides]
  | succ n ih =>
    intro j usb w
    by_cases hd : stride F j = stride L j
    · rw [passSpec_same _ _ _ _ _ _ _ hd]
      refine ⟨(ih _ _ _).1, ?_⟩
      rw [(ih _ _ _).2]
      simp [sentStrides, List.range'_succ, List.filter_cons, hd]
    · rw [passSpec_sent _ _ _ _ _ _ _ hd (h _)]
      refine ⟨(ih _ _ _).1, ?_⟩
      rw [(ih _ _ _).2]
      simp [sentStrides, List.range'_succ, List.filter_cons, hd]


/-! ## Decoding a chunk -/

/-- The channel writes of the decode loop, after `n` of its 32 rounds, on a
full frame: the first `n` channels of stride `k` hold the payload, the frame
keeps its length and every other channel. -/
theorem decode_fold (usb : List Nat) (b : DmxBuffer) (k : Nat) (hk : k < 16)
    (hd : b.data.length = 512) (hl : b.length = 512) :
    ∀ n, n ≤ 32 →
      ((List.range n).foldl
          (fun b i => b.SetChannel (32 * k + i) (usb.getD (i + 1) 0)) b).length = 512
      ∧ ((List.range n).foldl
          (fun b i => b.SetChannel (32 * k + i) (usb.getD (i + 1) 0)) b).data.length = 512
      ∧ ∀ c, ((List.range n).foldl
          (fun b i => b.SetChannel (32 * k + i) (usb.getD (i + 1) 0)) b).data[c]?
          = if 32 * k ≤ c ∧ c < 32 * k + n then some (usb.getD (c - 32 * k + 1) 0)
            else b.data[c]? := by
  intro n
  induction n with
  | zero =>
    intro _
    refine ⟨hl, hd, fun c => ?_⟩
    simp only [List.range_zero, List.foldl_nil]
    rw [if_neg (by omega)]
  | succ n ih =>
    intro hn
    obtain ⟨h1, h2, h3⟩ := ih (by omega)
    rw [List.range_succ, List.foldl_append]
    simp only [List.foldl_cons, List.foldl_nil]
    generalize (List.range n).foldl
      (fun b i => b.SetChannel (32 * k + i) (usb.getD (i + 1) 0)) b = b1 at h1 h2 h3
    have hset : b1.SetChannel (32 * k + n) (usb.getD (n + 1) 0)
        = ⟨b1.data.set (32 * k + n) (usb.getD (n + 1) 0), 512⟩ := by
      unfold DmxBuffer.SetChannel
      simp only [DMX_UNIVERSE_SIZE]
      rw [if_neg (by omega), if_neg (by omega), h1]
      congr 1
      omega
    rw [hset]
    refine ⟨rfl, by simp [h2], fun c => ?_⟩
    simp only [List.getElem?_set, h2, h3]
    by_cases hc : 32 * k + n = c
    · subst hc
      simp
      omega
    · simp only [hc, if_false]
      by_cases hc2 : 32 * k ≤ c ∧ c < 32 * k + n
      · rw [if_pos hc2, if_pos (by omega)]
      · rw [if_neg hc2, if_neg (by omega)]

theorem startOff_eq (v : Nat) (h : v < 16) : (v * 32) % 65536 = 32 * v := by
  omega

theorem chunk_getElem?_succ (F : List Nat) (k i : Nat) (hi : i < 32) :
    (chunk F k)[1 + i]? = F[32 * k + i]? := by
  rw [Nat.add_comm 1 i]
  simp [chunk, stride, List.getElem?_take, hi]

theorem sentStrides_zero (F L : List Nat) (n : Nat) :
    sentStrides F L 0 n
      = (List.range n).filter (fun k => decide (stride F k ≠ stride L k)) := by
  simp [sentStrides, List.range_eq_range']

/-! ## The threaded sender: delta transmission (C1) -/

/-- C1: a pass of `TransmitBuffer` over a 512-channel frame `F` against the
shadow content `L`, all transfers succeeding, returns true and transmits, in
increasing index order, exactly the chunks `chunk F k` of the strides `k` in
0..15 on which `F` and `L` differ; such a chunk is 33 bytes long, starts with
`k` and carries `F[32k..32k+32)`. With `L` blacked out and `F` = (255, 0, ...)
the only chunk is index 0 with payload 255, 0, ..., 0. -/
theorem C1_TransmitBuffer_sends_changed_strides (s : NodleU1ThreadedSender)
    (adaptor : Nat → Int) (F L : List Nat) (hF : F.length = 512) (hL : L.length = 512)
    (htx : s.m_tx_buffer.WF) (hlast : s.m_last_tx_buffer = DmxBuffer.ofFrame L)
    (hok : ∀ n, adaptor n = 0) :
    (∃ r, TransmitBuffer s adaptor (DmxBuffer.ofFrame F) = some r
      ∧ r.result = true
      ∧ (∀ t ∈ r.wire, t.ret = 0)
      ∧ r.wire.map Transfer.packet
        = ((List.range 16).filter (fun k => decide (stride F k ≠ stride L k))).map (chunk F))
    ∧ (∀ k, k < 16 → (chunk F k).length = 33 ∧ (chunk F k)[0]? = some k
        ∧ ∀ i, i < 32 → (chunk F k)[1 + i]? = F[32 * k + i]?)
    ∧ (L = blackout → F = frame255 →
        ∃ r, TransmitBuffer s adaptor (DmxBuffer.ofFrame F) = some r
          ∧ r.result = true
          ∧ r.wire.map Transfer.packet = [0 :: 255 :: List.replicate 31 0]) := by
  have heq := TransmitBuffer_eq s adaptor (DmxBuffer.ofFrame F) F L hF hL
    (setRange_full s.m_tx_buffer F htx hF) hlast
  have hall := passSpec_allOk adaptor F L hok 16 0 (List.replicate DATABLOCK_SIZE 0) []
  rw [sentStrides_zero, List.nil_append] at hall
  have hwire : ((passSpec adaptor F L 16 0 (List.replicate DATABLOCK_SIZE 0) []).wire).map
      Transfer.packet
      = ((List.range 16).filter (fun k => decide (stride F k ≠ stride L k))).map (chunk F) := by
    rw [hall.2, List.map_map]
    rfl
  refine ⟨⟨_, heq, hall.1, ?_, hwire⟩, ?_, ?_⟩
  · intro t ht
    simp only [hall.2, List.mem_map] at ht
    obtain ⟨k, _, rfl⟩ := ht
    rfl
  · intro k hk
    refine ⟨chunk_length F k (by omega), by simp [chunk], fun i hi => chunk_getElem?_succ F k i hi⟩
  · intro hLb hFf
    refine ⟨_, heq, hall.1, ?_⟩
    rw [hwire, hLb, hFf]
    decide

/-- C1, at the blacked-out sender and the frame (255, 0, ..., 0). -/
theorem C1_TransmitBuffer_sends_changed_strides_witness :
    ∃ r, TransmitBuffer NodleU1ThreadedSender.new allOk (DmxBuffer.ofFrame frame255) = some r
      ∧ r.result = true
      ∧ r.wire.map Transfer.packet = [0 :: 255 :: List.replicate 31 0] :=
  (C1_TransmitBuffer_sends_changed_strides NodleU1ThreadedSender.new allOk frame255 blackout
    (by decide) (by decide) ⟨by decide, by decide⟩ rfl (fun _ => rfl)).2.2 rfl rfl

/-! ## The receivers: decoding (C3, C4) -/

/-- The decode of a valid chunk into a full frame, as both receivers perform it. -/
theorem decode_valid_chunk (usb_data : List Nat) (buffer : DmxBuffer)
    (buffer_updated : Bool) (hk : usb_data.getD 0 0 < 16)
    (hd : buffer.data.length = 512) (hl : buffer.length = 512) :
    (∃ b, NodleU1ThreadedReceiver.ReceiveBuffer 0 usb_data buffer buffer_updated
        = (true, b, true)
      ∧ NodleU1AsyncUsbReceiver.TransferCompleted usb_data buffer = (true, b)
      ∧ b.length = 512 ∧ b.data.length = 512
      ∧ (∀ i, i < 32 → b.data[32 * usb_data.getD 0 0 + i]? = some (usb_data.getD (1 + i) 0))
      ∧ (∀ c, (c < 32 * usb_data.getD 0 0 ∨ 32 * usb_data.getD 0 0 + 32 ≤ c) →
          b.data[c]? = buffer.data[c]?)) := by
  obtain ⟨h1, h2, h3⟩ := decode_fold usb_data buffer (usb_data.getD 0 0) hk hd hl 32 (le_refl 32)
  refine ⟨_, ?_, ?_, h1, h2, ?_, ?_⟩
  · unfold NodleU1ThreadedReceiver.ReceiveBuffer NodleU1ThreadedReceiver.ReadDataChunk
    rw [if_pos (by rfl), if_pos hk]
    simp only [startOff_eq _ hk]
  · unfold NodleU1AsyncUsbReceiver.TransferCompleted
    rw [if_pos hk]
    simp only [startOff_eq _ hk]
  · intro i hi
    rw [h3, if_pos (by omega)]
    congr 2
    omega
  · intro c hc
    rw [h3, if_neg (by omega)]


/-- C3: a received chunk whose index byte is 16 or more changes no channel of
the receive frame and reports no update: `ReceiveBuffer` leaves the buffer
and `*buffer_updated` as they were, `TransferCompleted` leaves the buffer as
it was and returns false. -/
theorem C3_invalid_index_is_dropped (ret : Int) (usb_data : List Nat) (buffer : DmxBuffer)
    (buffer_updated : Bool) (h : 16 ≤ usb_data.getD 0 0) :
    NodleU1ThreadedReceiver.ReceiveBuffer ret usb_data buffer buffer_updated
        = (true, buffer, buffer_updated)
    ∧ NodleU1AsyncUsbReceiver.TransferCompleted usb_data buffer = (false, buffer) := by
  have hn : ¬ usb_data.getD 0 0 < 16 := by omega
  constructor
  · simp only [NodleU1ThreadedReceiver.ReceiveBuffer, hn, if_false, ite_self]
  · simp only [NodleU1AsyncUsbReceiver.TransferCompleted, hn, if_false]

/-- C3, at a chunk with index byte 16 and a blacked-out receive frame. -/
theorem C3_invalid_index_is_dropped_witness :
    16 ≤ (16 :: List.replicate 32 7).getD 0 0
    ∧ NodleU1ThreadedReceiver.ReceiveBuffer 0 (16 :: List.replicate 32 7)
        (DmxBuffer.ofFrame blackout) false = (true, DmxBuffer.ofFrame blackout, false)
    ∧ NodleU1AsyncUsbReceiver.TransferCompleted (16 :: List.replicate 32 7)
        (DmxBuffer.ofFrame blackout) = (false, DmxBuffer.ofFrame blackout) :=
  ⟨by decide, C3_invalid_index_is_dropped 0 (16 :: List.replicate 32 7)
    (DmxBuffer.ofFrame blackout) false (by decide)⟩

/-- C4: a successfully received chunk with index byte `k < 16` decoded into a
512-channel receive frame sets channel `32k + i` to chunk byte `1 + i` for
every `i` in 0..31, leaves every other channel and the frame length
unchanged, and reports an update, in `ReceiveBuffer` (which sets
`*buffer_updated`) and in `TransferCompleted` (which returns true) alike. -/
theorem C4_valid_chunk_is_decoded (usb_data : List Nat) (buffer : DmxBuffer)
    (buffer_updated : Bool) (hk : usb_data.getD 0 0 < 16)
    (hd : buffer.data.length = 512) (hl : buffer.length = 512) :
    (∃ b, NodleU1ThreadedReceiver.ReceiveBuffer 0 usb_data buffer buffer_updated
        = (true, b, true)
      ∧ NodleU1AsyncUsbReceiver.TransferCompleted usb_data buffer = (true, b)
      ∧ b.length = 512 ∧ b.data.length = 512
      ∧ (∀ i, i < 32 → b.data[32 * usb_data.getD 0 0 + i]? = some (usb_data.getD (1 + i) 0))
      ∧ (∀ c, (c < 32 * usb_data.getD 0 0 ∨ 32 * usb_data.getD 0 0 + 32 ≤ c) →
          b.data[c]? = buffer.data[c]?)) :=
  decode_valid_chunk usb_data buffer buffer_updated hk hd hl

/-- C4, at the chunk with index 1 and payload all 7 on a blacked-out frame. -/
theorem C4_valid_chunk_is_decoded_witness :
    ∃ b, NodleU1ThreadedReceiver.ReceiveBuffer 0 (1 :: List.replicate 32 7)
        (DmxBuffer.ofFrame blackout) false = (true, b, true)
      ∧ b.data[32]? = some 7 ∧ b.data[31]? = some 0 ∧ b.data[64]? = some 0 := by
  obtain ⟨b, h1, _, _, _, h5, h6⟩ := C4_valid_chunk_is_decoded (1 :: List.replicate 32 7)
    (DmxBuffer.ofFrame blackout) false (by decide) (by decide) rfl
  refine ⟨b, h1, ?_, ?_, ?_⟩
  · have := h5 0 (by omega)
    simpa using this
  · rw [h6 31 (Or.inl (by decide))]
    decide
  · rw [h6 64 (Or.inr (by decide))]
    decide

/-! ## Round trip through the wire (C2) -/

theorem mix_getElem? (F L : List Nat) (j c : Nat) (hF : F.length = 512) (hj : j ≤ 16) :
    (mix F L j)[c]? = if c < 32 * j then F[c]? else L[c]? := by
  unfold mix
  have h1 : (List.take (32 * j) F).length = 32 * j := by simp [hF]; omega
  rw [List.getElem?_append, h1, List.getElem?_take, List.getElem?_drop]
  by_cases hc : c < 32 * j
  · simp [hc]
  · simp only [hc, if_false]
    congr 1
    omega

theorem mix_zero (F L : List Nat) : mix F L 0 = L := by
  simp [mix]

theorem mix_sixteen (F L : List Nat) (hF : F.length = 512) (hL : L.length = 512) :
    mix F L 16 = F := by
  unfold mix
  rw [List.take_of_length_le (by omega), List.drop_of_length_le (by omega), List.append_nil]

/-- Decoding the chunk of stride `j` of `F` brings stride `j` of the receive
frame up to `F`. -/
theorem decode_chunk_mix (F L : List Nat) (j : Nat) (hF : F.length = 512)
    (hL : L.length = 512) (hj : j ≤ 15) (u : Bool) :
    (NodleU1ThreadedReceiver.ReceiveBuffer 0 (chunk F j) ⟨mix F L j, 512⟩ u).2.1
      = ⟨mix F L (j + 1), 512⟩ := by
  have hidx : (chunk F j).getD 0 0 = j := by simp [chunk]
  have hlt : (chunk F j).getD 0 0 < 16 := by omega
  obtain ⟨b, h1, _, h3, h4, h5, h6⟩ := decode_valid_chunk (chunk F j) ⟨mix F L j, 512⟩ u hlt
    (mix_length F L j hF hL (by omega)) rfl
  rw [h1]
  show b = _
  have hb : b = ⟨b.data, b.length⟩ := rfl
  rw [hb, h3]
  congr 1
  apply List.ext_getElem?
  intro c
  rw [mix_getElem? F L (j + 1) c hF (by omega)]
  rw [hidx] at h5 h6
  by_cases hc1 : c < 32 * j
  · rw [h6 c (Or.inl hc1), if_pos (by omega)]
    show (mix F L j)[c]? = _
    rw [mix_getElem? F L j c hF (by omega), if_pos hc1]
  · by_cases hc2 : c < 32 * j + 32
    · have := h5 (c - 32 * j) (by omega)
      rw [show 32 * j + (c - 32 * j) = c by omega] at this
      rw [this, if_pos (by omega), List.getD_eq_getElem?_getD, chunk_getElem?_succ F j _ (by omega),
        show 32 * j + (c - 32 * j) = c by omega]
      have hcF : c < F.length := by omega
      simp [List.getElem?_eq_getElem hcF]
    · rw [h6 c (Or.inr (by omega)), if_neg (by omega)]
      show (mix F L j)[c]? = _
      rw [mix_getElem? F L j c hF (by omega), if_neg hc1]

theorem sentStrides_succ (F L : List Nat) (j n : Nat) :
    sentStrides F L j (n + 1)
      = if stride F j ≠ stride L j then j :: sentStrides F L (j + 1) n
        else sentStrides F L (j + 1) n := by
  by_cases hd : stride F j = stride L j <;>
    simp [sentStrides, List.range'_succ, List.filter_cons, hd]

theorem decodeWire_sent (F L : List Nat) (hF : F.length = 512) (hL : L.length = 512) :
    ∀ n j, j + n ≤ 16 →
      decodeWire ((sentStrides F L j n).map (fun k => ⟨chunk F k, 0⟩)) ⟨mix F L j, 512⟩
        = ⟨mix F L (j + n), 512⟩ := by
  intro n
  induction n with
  | zero => intro j _; simp [sentStrides, decodeWire]
  | succ n ih =>
    intro j hj
    rw [sentStrides_succ]
    by_cases hd : stride F j = stride L j
    · rw [if_neg (by simpa using hd), ← mix_step_eq F L j hd, ih (j + 1) (by omega)]
      congr 2
      omega
    · rw [if_pos hd]
      have := ih (j + 1) (by omega)
      unfold decodeWire at this ⊢
      rw [List.map_cons, List.foldl_cons, decode_chunk_mix F L j hF hL (by omega), this]
      congr 2
      omega

/-- C2: round trip. For a 512-channel frame `F` and a shadow content `L`, the
chunks a pass of `TransmitBuffer` transmits (all transfers succeeding),
decoded by `ReceiveBuffer` one after the other in transmission order into a
512-channel receive frame that starts equal to `L`, leave the receive frame
equal to `F` on all 512 channels; in particular from a blacked-out shadow and
a blacked-out receive frame. -/
theorem C2_transmit_then_decode_roundtrip (s : NodleU1ThreadedSender)
    (adaptor : Nat → Int) (F L : List Nat) (hF : F.length = 512) (hL : L.length = 512)
    (htx : s.m_tx_buffer.WF) (hlast : s.m_last_tx_buffer = DmxBuffer.ofFrame L)
    (hok : ∀ n, adaptor n = 0) :
    ∃ r, TransmitBuffer s adaptor (DmxBuffer.ofFrame F) = some r
      ∧ decodeWire r.wire (DmxBuffer.ofFrame L) = DmxBuffer.ofFrame F
      ∧ (L = blackout → decodeWire r.wire (DmxBuffer.Blackout ⟨[], 0⟩) = DmxBuffer.ofFrame F) := by
  have heq := TransmitBuffer_eq s adaptor (DmxBuffer.ofFrame F) F L hF hL
    (setRange_full s.m_tx_buffer F htx hF) hlast
  have hall := passSpec_allOk adaptor F L hok 16 0 (List.replicate DATABLOCK_SIZE 0) []
  rw [List.nil_append] at hall
  have hdec := decodeWire_sent F L hF hL 16 0 (by omega)
  rw [mix_zero, Nat.zero_add, mix_sixteen F L hF hL] at hdec
  refine ⟨_, heq, ?_, ?_⟩
  · show decodeWire (passSpec adaptor F L 16 0 (List.replicate DATABLOCK_SIZE 0) []).wire
      ⟨L, 512⟩ = ⟨F, 512⟩
    rw [hall.2]
    exact hdec
  · intro hLb
    show decodeWire (passSpec adaptor F L 16 0 (List.replicate DATABLOCK_SIZE 0) []).wire
      ⟨List.replicate 512 0, 512⟩ = ⟨F, 512⟩
    rw [hall.2]
    rw [hLb] at hdec ⊢
    exact hdec

/-- C2, at the blacked-out sender and the frame (255, 0, ..., 0). -/
theorem C2_transmit_then_decode_roundtrip_witness :
    ∃ r, TransmitBuffer NodleU1ThreadedSender.new allOk (DmxBuffer.ofFrame frame255) = some r
      ∧ decodeWire r.wire (DmxBuffer.ofFrame blackout) = DmxBuffer.ofFrame frame255 := by
  obtain ⟨r, h1, h2, _⟩ := C2_transmit_then_decode_roundtrip NodleU1ThreadedSender.new allOk
    frame255 blackout (by decide) (by decide) ⟨by decide, by decide⟩ rfl (fun _ => rfl)
  exact ⟨r, h1, h2⟩

/-! ## The threaded sender: failing transfers (C8) -/

theorem mem_sentStrides (F L : List Nat) (j n k : Nat) (h : k ∈ sentStrides F L j n) :
    j ≤ k ∧ k < j + n := by
  simp only [sentStrides, List.mem_filter, List.mem_range'_1] at h
  exact h.1

/-- The two ways a pass ends: every stride examined and every transfer
accepted, or stopped at the first refused transfer, that of some stride `k`. -/
theorem passSpec_cases (adaptor : Nat → Int) (F L : List Nat) :
    ∀ n j usb w,
      ((passSpec adaptor F L n j usb w).ok = true
        ∧ (passSpec adaptor F L n j usb w).k = j + n
        ∧ (passSpec adaptor F L n j usb w).wire
          = w ++ (sentStrides F L j n).map (fun k => ⟨chunk F k, 0⟩))
      ∨ ((passSpec adaptor F L n j usb w).ok = false
        ∧ ∃ k ret, j ≤ k ∧ k < j + n ∧ ret ≠ 0
          ∧ (passSpec adaptor F L n j usb w).k = k + 1
          ∧ (passSpec adaptor F L n j usb w).wire
            = w ++ (sentStrides F L j (k - j)).map (fun k => ⟨chunk F k, 0⟩)
              ++ [⟨chunk F k, ret⟩]) := by
  intro n
  induction n with
  | zero => intro j usb w; left; simp [passSpec, sentStrides]
  | succ n ih =>
    intro j usb w
    by_cases hd : stride F j = stride L j
    · rw [passSpec_same _ _ _ _ _ _ _ hd]
      rcases ih (j + 1) usb w with ⟨h1, h2, h3⟩ | ⟨h1, k, ret, h2, h3, h4, h5, h6⟩
      · left
        refine ⟨h1, by omega, ?_⟩
        rw [h3, sentStrides_succ, if_neg (by simpa using hd)]
      · right
        refine ⟨h1, k, ret, by omega, by omega, h4, h5, ?_⟩
        rw [h6, show k - j = (k - (j + 1)) + 1 by omega, sentStrides_succ,
          if_neg (by simpa using hd)]
    · by_cases ha : adaptor w.length = 0
      · rw [passSpec_sent _ _ _ _ _ _ _ hd ha]
        rcases ih (j + 1) (chunk F j) (w ++ [⟨chunk F j, 0⟩]) with
          ⟨h1, h2, h3⟩ | ⟨h1, k, ret, h2, h3, h4, h5, h6⟩
        · left
          refine ⟨h1, by omega, ?_⟩
          rw [h3, sentStrides_succ, if_pos hd]
          simp
        · right
          refine ⟨h1, k, ret, by omega, by omega, h4, h5, ?_⟩
          rw [h6, show k - j = (k - (j + 1)) + 1 by omega, sentStrides_succ, if_pos hd]
          simp
      · rw [passSpec_failed _ _ _ _ _ _ _ hd ha]
        right
        refine ⟨rfl, j, adaptor w.length, le_refl j, by omega, ha, rfl, ?_⟩
        simp [sentStrides]

/-- C8 (what the code does): the shadow is written before the transfer is
attempted. With a blacked-out shadow and the frame (255, 0, ..., 0), a pass
whose transfer of chunk 0 fails returns false and leaves stride 0 of
`m_last_tx_buffer` at the new content, not at the content it had before the
pass; the next pass with the same frame then transmits nothing. -/
theorem C8_failed_chunk_is_recorded_as_sent :
    TransmitBuffer NodleU1ThreadedSender.new firstFails (DmxBuffer.ofFrame frame255)
      = some ⟨false, ⟨DmxBuffer.ofFrame frame255, DmxBuffer.ofFrame frame255⟩,
          [⟨chunk frame255 0, -1⟩]⟩
    ∧ stride frame255 0 ≠ stride NodleU1ThreadedSender.new.m_last_tx_buffer.data 0
    ∧ TransmitBuffer ⟨DmxBuffer.ofFrame frame255, DmxBuffer.ofFrame frame255⟩ allOk
        (DmxBuffer.ofFrame frame255)
      = some ⟨true, ⟨DmxBuffer.ofFrame frame255, DmxBuffer.ofFrame frame255⟩, []⟩ := by
  decide

/-! ## The threaded sender: convergence (C10) -/

/-- Copying a request into a working buffer of full length: the channels of
the request, then the old content. -/
theorem setRange_request (T buffer : DmxBuffer) (hd : T.data.length = 512)
    (hl : T.length = 512) (hb : buffer.WF) :
    T.SetRange 0 buffer.GetRaw buffer.Size
        = ⟨buffer.data.take buffer.length ++ T.data.drop buffer.length, 512⟩
    ∧ (buffer.data.take buffer.length ++ T.data.drop buffer.length).length = 512 := by
  obtain ⟨hb1, hb2⟩ := hb
  unfold DMX_UNIVERSE_SIZE at hb1 hb2
  have hmin : min buffer.length (512 - 0) = buffer.length := by omega
  have htl : (buffer.data.take buffer.length).length = buffer.length := by
    rw [List.length_take, hb1]; omega
  constructor
  · unfold DmxBuffer.SetRange DmxBuffer.GetRaw DmxBuffer.Size DMX_UNIVERSE_SIZE memcpy
    rw [if_neg (by omega), if_neg (by omega)]
    simp only []
    rw [hmin, htl, hl, List.take_zero, List.nil_append, Nat.zero_add]
    congr 1
    omega
  · rw [List.length_append, htl, List.length_drop, hd]
    omega

/-- Copying the same request a second time changes nothing. -/
theorem setRange_request_twice (T buffer : DmxBuffer) (hd : T.data.length = 512)
    (hl : T.length = 512) (hb : buffer.WF) :
    (T.SetRange 0 buffer.GetRaw buffer.Size).SetRange 0 buffer.GetRaw buffer.Size
      = T.SetRange 0 buffer.GetRaw buffer.Size := by
  obtain ⟨h1, h2⟩ := setRange_request T buffer hd hl hb
  rw [h1]
  obtain ⟨h3, _⟩ := setRange_request
    ⟨buffer.data.take buffer.length ++ T.data.drop buffer.length, 512⟩ buffer h2 rfl hb
  rw [h3]
  congr 2
  have htl : (buffer.data.take buffer.length).length = buffer.length := by
    rw [List.length_take, hb.1]
    have := hb.2
    omega
  exact List.drop_left' htl

theorem passSpec_no_change (adaptor : Nat → Int) (F : List Nat) :
    ∀ n j usb w, passSpec adaptor F F n j usb w = ⟨true, j + n, usb, w⟩ := by
  intro n
  induction n with
  | zero => intro j usb w; rfl
  | succ n ih =>
    intro j usb w
    rw [passSpec_same _ _ _ _ _ _ _ rfl, ih]
    congr 1
    omega

/-- C10: convergence. In a sender whose two buffers hold full frames, after a
pass of `TransmitBuffer` in which every transfer succeeds the shadow
`m_last_tx_buffer` equals the working frame `m_tx_buffer`, a frame of 512
channels; a pass with the same input frame that follows at once returns true,
transmits no chunk and leaves the sender as it is, whatever the adaptor
would answer. -/
theorem C10_TransmitBuffer_converges (s : NodleU1ThreadedSender) (adaptor : Nat → Int)
    (buffer : DmxBuffer) (hb : buffer.WF)
    (ht1 : s.m_tx_buffer.data.length = 512) (ht2 : s.m_tx_buffer.length = 512)
    (hs1 : s.m_last_tx_buffer.data.length = 512) (hs2 : s.m_last_tx_buffer.length = 512)
    (hok : ∀ n, adaptor n = 0) :
    ∃ r, TransmitBuffer s adaptor buffer = some r
      ∧ r.result = true
      ∧ r.sender.m_last_tx_buffer = r.sender.m_tx_buffer
      ∧ r.sender.m_tx_buffer.length = 512
      ∧ r.sender.m_tx_buffer.data.length = 512
      ∧ ∀ next : Nat → Int, TransmitBuffer r.sender next buffer = some ⟨true, r.sender, []⟩ := by
  obtain ⟨hset, hlen⟩ := setRange_request s.m_tx_buffer buffer ht1 ht2 hb
  have htwice := setRange_request_twice s.m_tx_buffer buffer ht1 ht2 hb
  rw [hset] at htwice
  generalize buffer.data.take buffer.length ++ s.m_tx_buffer.data.drop buffer.length = F
    at hset hlen htwice
  have hlast : s.m_last_tx_buffer = ⟨s.m_last_tx_buffer.data, 512⟩ := by
    rw [← hs2]
  have heq := TransmitBuffer_eq s adaptor buffer F s.m_last_tx_buffer.data hlen hs1 hset hlast
  have hall := passSpec_allOk adaptor F s.m_last_tx_buffer.data hok 16 0
    (List.replicate DATABLOCK_SIZE 0) []
  have hk := passSpec_k adaptor F s.m_last_tx_buffer.data 16 0
    (List.replicate DATABLOCK_SIZE 0) [] hall.1
  rw [hk, Nat.zero_add, mix_sixteen F _ hlen hs1] at heq
  refine ⟨_, heq, hall.1, rfl, rfl, hlen, fun next => ?_⟩
  have heq2 := TransmitBuffer_eq ⟨⟨F, 512⟩, ⟨F, 512⟩⟩ next buffer F F hlen hlen htwice rfl
  rw [passSpec_no_change, Nat.zero_add, mix_sixteen F F hlen hlen] at heq2
  exact heq2

/-- C10, at the blacked-out sender and the frame (255, 0, ..., 0). -/
theorem C10_TransmitBuffer_converges_witness :
    ∃ r, TransmitBuffer NodleU1ThreadedSender.new allOk (DmxBuffer.ofFrame frame255) = some r
      ∧ r.result = true
      ∧ r.sender.m_last_tx_buffer = r.sender.m_tx_buffer
      ∧ TransmitBuffer r.sender firstFails (DmxBuffer.ofFrame frame255)
        = some ⟨true, r.sender, []⟩ := by
  obtain ⟨r, h1, h2, h3, _, _, h6⟩ := C10_TransmitBuffer_converges NodleU1ThreadedSender.new
    allOk (DmxBuffer.ofFrame frame255) ⟨by decide, by decide⟩ (by decide) rfl (by decide) rfl
    (fun _ => rfl)
  exact ⟨r, h1, h2, h3, h6 firstFails⟩

/-! ## The asynchronous sender: one cycle (C5, C6) -/

open NodleU1AsyncUsbSender

theorem memset_nothing (p : List Nat) (hp : p.length = 33) : memset p (1 + 32) 0 (32 - 32) = p := by
  simp only [memset, memcpy, Nat.sub_self, List.replicate_zero, List.length_nil, Nat.add_zero,
    List.append_nil]
  rw [List.take_of_length_le (by omega), List.drop_of_length_le (by omega), List.append_nil]

theorem getRange_stride (F : List Nat) (j : Nat) (hj : j ≤ 15) :
    DmxBuffer.GetRange ⟨F, 512⟩ (32 * j) 32 = ((F.drop (32 * j)).take 32, 32) := by
  unfold DmxBuffer.GetRange
  rw [if_neg (by simp only []; omega)]
  have hmin : min 32 (512 - 32 * j) = 32 := by omega
  simp only [hmin]

/-- A completion in the middle of a cycle over a full frame submits the chunk
of the next stride and advances the offset by 32. -/
theorem PostTransferHook_continue (s : NodleU1AsyncUsbSender) (F : List Nat) (j : Nat)
    (pending : Bool) (ret : Int) (hF : F.length = 512) (htx : s.m_tx_buffer = ⟨F, 512⟩)
    (hoff : s.m_buffer_offset = 32 * j) (hj : j ≤ 15) (hp : s.m_packet.length = 33) :
    s.PostTransferHook pending ret
      = (⟨⟨F, 512⟩, 32 * (j + 1), chunk F j⟩, [⟨chunk F j, ret⟩]) := by
  have hsl : ((F.drop (32 * j)).take 32).length = 32 := by simp [hF]; omega
  have hpk : memcpy (s.m_packet.set 0 j) 1 ((F.drop (32 * j)).take 32) = chunk F j :=
    memcpy_packet s.m_packet _ j hp hsl
  have hc : (chunk F j).length = 33 := chunk_length F j (by omega)
  have hidx : 32 * j / 32 % 256 = j := by omega
  have hnext : (32 * j + 32) % UINT_MOD = 32 * (j + 1) := by
    simp only [UINT_MOD]; omega
  unfold PostTransferHook
  rw [if_pos (by rw [htx, hoff]; simp only [DmxBuffer.Size]; omega)]
  unfold ContinueTransfer SendChunk
  simp only [htx, hoff, getRange_stride F j hj, hidx, hpk, memset_nothing _ hc, hnext]

/-- The completion of the last chunk of a cycle submits nothing and sets the
offset back to 0. -/
theorem PostTransferHook_last (s : NodleU1AsyncUsbSender) (pending : Bool) (ret : Int)
    (h : s.m_tx_buffer.Size ≤ s.m_buffer_offset) :
    (s.PostTransferHook pending ret).2 = []
    ∧ (s.PostTransferHook pending ret).1.m_buffer_offset = 0
    ∧ (s.PostTransferHook pending ret).1.m_packet = s.m_packet
    ∧ (s.PostTransferHook pending ret).1.m_tx_buffer
      = if pending then s.m_tx_buffer.Reset else s.m_tx_buffer := by
  unfold PostTransferHook
  rw [if_neg (by omega), if_pos h]
  cases pending <;> simp

/-- A request accepted at offset 0 with a full frame: the frame becomes the
working frame, chunk 0 is submitted and the offset is 32. -/
theorem PerformTransfer_initial (s : NodleU1AsyncUsbSender) (F : List Nat) (ret : Int)
    (hF : F.length = 512) (htx : s.m_tx_buffer.WF) (hoff : s.m_buffer_offset = 0)
    (hp : s.m_packet.length = 33) :
    s.PerformTransfer (DmxBuffer.ofFrame F) ret
      = ((ret == 0) == false, ⟨⟨F, 512⟩, 32, chunk F 0⟩, [⟨chunk F 0, ret⟩]) := by
  have hsl : ((F.drop (32 * 0)).take 32).length = 32 := by simp [hF]
  have hpk : memcpy (s.m_packet.set 0 0) 1 ((F.drop (32 * 0)).take 32) = chunk F 0 :=
    memcpy_packet s.m_packet _ 0 hp hsl
  have hc : (chunk F 0).length = 33 := chunk_length F 0 (by omega)
  have hg := getRange_stride F 0 (by omega)
  rw [Nat.mul_zero] at hg hpk
  unfold PerformTransfer
  rw [if_pos hoff]
  unfold SendInitialChunk SendChunk
  simp only [setRange_full s.m_tx_buffer F htx hF, hg, hpk, memset_nothing _ hc]
  simp only [DmxBuffer.Size, show (32 : Nat) < 512 by omega, if_true]

/-- A run of `n` completions from offset `32 * j` of a cycle over a full
frame, every submission accepted, submits the chunks `j, ..., j + n - 1`. -/
theorem runHooks_cycle (F : List Nat) (hF : F.length = 512) :
    ∀ (ps : List Bool) (j : Nat) (s : NodleU1AsyncUsbSender),
      s.m_tx_buffer = ⟨F, 512⟩ → s.m_buffer_offset = 32 * j → s.m_packet.length = 33 →
      j + ps.length ≤ 16 →
      (s.runHooks (ps.map (fun q => (q, 0)))).1.m_tx_buffer = ⟨F, 512⟩
      ∧ (s.runHooks (ps.map (fun q => (q, 0)))).1.m_buffer_offset = 32 * (j + ps.length)
      ∧ (s.runHooks (ps.map (fun q => (q, 0)))).1.m_packet.length = 33
      ∧ (s.runHooks (ps.map (fun q => (q, 0)))).2
        = (List.range' j ps.length).map (fun k => ⟨chunk F k, 0⟩) := by
  intro ps
  induction ps with
  | nil =>
    intro j s htx hoff hp _
    exact ⟨htx, hoff, hp, rfl⟩
  | cons q ps ih =>
    intro j s htx hoff hp hj
    rw [List.length_cons] at hj
    have hstep := PostTransferHook_continue s F j q 0 hF htx hoff (by omega) hp
    have hc : (chunk F j).length = 33 := chunk_length F j (by omega)
    obtain ⟨h1, h2, h3, h4⟩ := ih (j + 1) ⟨⟨F, 512⟩, 32 * (j + 1), chunk F j⟩ rfl rfl hc
      (by omega)
    rw [List.map_cons, runHooks, hstep]
    refine ⟨h1, ?_, h3, ?_⟩
    · rw [h2, List.length_cons]
      congr 1
      omega
    · simp only [h4, List.length_cons, List.range'_succ, List.map_cons, List.singleton_append]

theorem chunk_frameA : ∀ k, k < 16 → chunk frameA k = k :: List.replicate 32 10 := by
  decide

theorem chunks_range_split (F : List Nat) (n1 n2 : Nat) (h : n1 + n2 = 15) :
    ([⟨chunk F 0, 0⟩] : List Transfer)
        ++ (List.range' 1 n1).map (fun k => ⟨chunk F k, 0⟩)
        ++ (List.range' (1 + n1) n2).map (fun k => ⟨chunk F k, 0⟩)
      = (List.range 16).map (fun k => ⟨chunk F k, 0⟩) := by
  have h16 : List.range 16 = 0 :: (List.range' 1 n1 ++ List.range' (1 + n1) n2) := by
    rw [List.range_eq_range', List.range'_append_1, show n2 + n1 = 15 by omega]
    rfl
  rw [h16, List.map_cons, List.map_append]
  simp

/-- C6: a 512-channel frame `F` accepted by `PerformTransfer` at offset 0,
every submission accepted, is sent in full whatever the working buffer held
before (also `F` itself): the chunk submitted by `SendInitialChunk` and the
chunks submitted by the next 15 calls of `PostTransferHook` are the chunks
`chunk F 0, ..., chunk F 15` in this order, chunk `k` being 33 bytes, index
byte `k`, payload `F[32k..32k+32)`; the call of `PostTransferHook` for the
16th completion submits nothing and sets `m_buffer_offset` to 0. -/
theorem C6_async_cycle_sends_all_strides (s : NodleU1AsyncUsbSender) (F : List Nat)
    (ps : List Bool) (pending : Bool) (ret : Int) (hF : F.length = 512)
    (htx : s.m_tx_buffer.WF) (hoff : s.m_buffer_offset = 0) (hp : s.m_packet.length = 33)
    (hps : ps.length = 15) :
    (s.PerformTransfer (DmxBuffer.ofFrame F) 0).2.2
        ++ ((s.PerformTransfer (DmxBuffer.ofFrame F) 0).2.1.runHooks
            (ps.map (fun q => (q, 0)))).2
      = (List.range 16).map (fun k => ⟨chunk F k, 0⟩)
    ∧ (∀ k, k < 16 → (chunk F k).length = 33 ∧ (chunk F k)[0]? = some k
        ∧ ∀ i, i < 32 → (chunk F k)[1 + i]? = F[32 * k + i]?)
    ∧ (((s.PerformTransfer (DmxBuffer.ofFrame F) 0).2.1.runHooks
          (ps.map (fun q => (q, 0)))).1.PostTransferHook pending ret).2 = []
    ∧ (((s.PerformTransfer (DmxBuffer.ofFrame F) 0).2.1.runHooks
          (ps.map (fun q => (q, 0)))).1.PostTransferHook pending ret).1.m_buffer_offset = 0 := by
  rw [PerformTransfer_initial s F 0 hF htx hoff hp]
  have hc : (chunk F 0).length = 33 := chunk_length F 0 (by omega)
  obtain ⟨h1, h2, _, h4⟩ := runHooks_cycle F hF ps 1 ⟨⟨F, 512⟩, 32, chunk F 0⟩ rfl rfl hc
    (by omega)
  have hlast := PostTransferHook_last
    ((⟨⟨F, 512⟩, 32, chunk F 0⟩ : NodleU1AsyncUsbSender).runHooks (ps.map (fun q => (q, 0)))).1
    pending ret (by rw [h1, h2, hps]; simp only [DmxBuffer.Size]; omega)
  refine ⟨?_, fun k hk => ⟨chunk_length F k (by omega), by simp [chunk],
    fun i hi => chunk_getElem?_succ F k i hi⟩, hlast.1, hlast.2.1⟩
  simp only [h4, hps]
  have := chunks_range_split F 15 0 rfl
  simpa using this

/-- C6, at a fresh sender and the frame with every channel at 10. -/
theorem C6_async_cycle_sends_all_strides_witness :
    ((NodleU1AsyncUsbSender.new (List.replicate 33 0)).PerformTransfer
        (DmxBuffer.ofFrame frameA) 0).2.2
      ++ (((NodleU1AsyncUsbSender.new (List.replicate 33 0)).PerformTransfer
            (DmxBuffer.ofFrame frameA) 0).2.1.runHooks
            ((List.replicate 15 false).map (fun q => (q, 0)))).2
      = (List.range 16).map (fun k => ⟨chunk frameA k, 0⟩) :=
  (C6_async_cycle_sends_all_strides (NodleU1AsyncUsbSender.new (List.replicate 33 0)) frameA
    (List.replicate 15 false) false 0 (by decide) ⟨by decide, by decide⟩ rfl (by decide)
    (by decide)).1

/-- C5: while `m_buffer_offset` is not 0, `PerformTransfer` with any frame
returns true, submits nothing and leaves the sender as it is. So when the
frame A (512 channels, all 10) has been accepted, some completions have been
handled and a request with the frame B (all 20) arrives, that request is
dropped, the whole cycle submits the 16 chunks of A and nothing else, the
16th completion sets the offset to 0, and only a request made then submits
chunk 0 of B. -/
theorem C5_request_while_sending_is_dropped :
    (∀ (s : NodleU1AsyncUsbSender) (B : DmxBuffer) (ret : Int),
      s.m_buffer_offset ≠ 0 → s.PerformTransfer B ret = (true, s, []))
    ∧ (∀ (s0 : NodleU1AsyncUsbSender) (ps1 ps2 : List Bool) (pending : Bool),
      s0.m_buffer_offset = 0 → s0.m_tx_buffer.WF → s0.m_packet.length = 33 →
      ps1.length + ps2.length = 15 →
      let a := s0.PerformTransfer (DmxBuffer.ofFrame frameA) 0
      let b := a.2.1.runHooks (ps1.map (fun q => (q, 0)))
      let c := b.1.PerformTransfer (DmxBuffer.ofFrame frameB) 0
      let d := c.2.1.runHooks (ps2.map (fun q => (q, 0)))
      let e := d.1.PostTransferHook pending 0
      b.1.m_buffer_offset ≠ 0
      ∧ c = (true, b.1, [])
      ∧ a.2.2 ++ b.2 ++ c.2.2 ++ d.2 ++ e.2
        = (List.range 16).map (fun k => ⟨k :: List.replicate 32 10, 0⟩)
      ∧ e.1.m_buffer_offset = 0
      ∧ (e.1.PerformTransfer (DmxBuffer.ofFrame frameB) 0).2.2
        = [⟨0 :: List.replicate 32 20, 0⟩]) := by
  have hdrop : ∀ (s : NodleU1AsyncUsbSender) (B : DmxBuffer) (ret : Int),
      s.m_buffer_offset ≠ 0 → s.PerformTransfer B ret = (true, s, []) := by
    intro s B ret h
    unfold PerformTransfer
    rw [if_neg h]
  refine ⟨hdrop, ?_⟩
  intro s0 ps1 ps2 pending hoff htx hp hlen
  have hA : frameA.length = 512 := by decide
  have hB : frameB.length = 512 := by decide
  have hc : (chunk frameA 0).length = 33 := chunk_length frameA 0 (by omega)
  intro a b c d e
  have ha : a = (true == false, ⟨⟨frameA, 512⟩, 32, chunk frameA 0⟩, [⟨chunk frameA 0, 0⟩]) :=
    PerformTransfer_initial s0 frameA 0 hA htx hoff hp
  obtain ⟨hb1, hb2, hb3, hb4⟩ := runHooks_cycle frameA hA ps1 1 a.2.1 (by rw [ha])
    (by rw [ha]) (by rw [ha]; exact hc) (by omega)
  have hbne : b.1.m_buffer_offset ≠ 0 := by
    show (a.2.1.runHooks (ps1.map (fun q => (q, 0)))).1.m_buffer_offset ≠ 0
    rw [hb2]; omega
  have hcdrop : c = (true, b.1, []) := hdrop b.1 _ 0 hbne
  obtain ⟨hd1, hd2, hd3, hd4⟩ := runHooks_cycle frameA hA ps2 (1 + ps1.length) c.2.1
    (by rw [hcdrop]; exact hb1) (by rw [hcdrop]; exact hb2) (by rw [hcdrop]; exact hb3)
    (by omega)
  have hlast := PostTransferHook_last d.1 pending 0 (by
    show (c.2.1.runHooks (ps2.map (fun q => (q, 0)))).1.m_tx_buffer.Size
      ≤ (c.2.1.runHooks (ps2.map (fun q => (q, 0)))).1.m_buffer_offset
    rw [hd1, hd2]; simp only [DmxBuffer.Size]; omega)
  refine ⟨hbne, hcdrop, ?_, hlast.2.1, ?_⟩
  · have hsplit := chunks_range_split frameA ps1.length ps2.length hlen
    have hcong : (List.range 16).map (fun k => (⟨chunk frameA k, 0⟩ : Transfer))
        = (List.range 16).map (fun k => ⟨k :: List.replicate 32 10, 0⟩) := by
      apply List.map_congr_left
      intro k hk
      rw [chunk_frameA k (List.mem_range.mp hk)]
    rw [← hcong, ← hsplit]
    show a.2.2 ++ (a.2.1.runHooks (ps1.map (fun q => (q, 0)))).2 ++ c.2.2
      ++ (c.2.1.runHooks (ps2.map (fun q => (q, 0)))).2
      ++ (d.1.PostTransferHook pending 0).2 = _
    rw [hb4, hd4, hlast.1, hcdrop, ha]
    simp
  · have hwf : e.1.m_tx_buffer.WF := by
      show (d.1.PostTransferHook pending 0).1.m_tx_buffer.WF
      rw [hlast.2.2.2]
      have hd1' : d.1.m_tx_buffer = ⟨frameA, 512⟩ := hd1
      rw [hd1']
      cases pending
      · exact ⟨hA, by decide⟩
      · exact ⟨hA, by decide⟩
    have hpk : e.1.m_packet.length = 33 := by
      show (d.1.PostTransferHook pending 0).1.m_packet.length = 33
      rw [hlast.2.2.1]
      exact hd3
    rw [PerformTransfer_initial e.1 frameB 0 hB hwf hlast.2.1 hpk]
    decide

/-- C5, at a sender in the middle of a cycle. -/
theorem C5_request_while_sending_is_dropped_witness :
    (⟨DmxBuffer.ofFrame frameA, 32, chunk frameA 0⟩ : NodleU1AsyncUsbSender).PerformTransfer
        (DmxBuffer.ofFrame frameB) 0
      = (true, ⟨DmxBuffer.ofFrame frameA, 32, chunk frameA 0⟩, []) :=
  C5_request_while_sending_is_dropped.1 ⟨DmxBuffer.ofFrame frameA, 32, chunk frameA 0⟩
    (DmxBuffer.ofFrame frameB) 0 (by decide)

/-! ## The asynchronous sender: outstanding transfers (C7) -/

theorem accepted_single_le (t : Transfer) : accepted [t] ≤ 1 := by
  unfold accepted
  exact le_trans (List.length_filter_le _ _) (by simp)

theorem setRange_length_le (T : DmxBuffer) (off : Nat) (src : List Nat) (n : Nat)
    (h : T.length ≤ 512) : (T.SetRange off src n).length ≤ 512 := by
  unfold DmxBuffer.SetRange
  simp only [DMX_UNIVERSE_SIZE]
  split
  · exact h
  · split
    · exact h
    · simp only []
      omega

/-- What `PerformTransfer` leaves behind at offset 0. -/
theorem PerformTransfer_accept (s : NodleU1AsyncUsbSender) (buffer : DmxBuffer) (ret : Int)
    (hoff : s.m_buffer_offset = 0) :
    (s.PerformTransfer buffer ret).2.1.m_tx_buffer
        = s.m_tx_buffer.SetRange 0 buffer.GetRaw buffer.Size
    ∧ (s.PerformTransfer buffer ret).2.1.m_buffer_offset
        = (if ((s.m_tx_buffer.SetRange 0 buffer.GetRaw buffer.Size).GetRange 0 32).2
              < (s.m_tx_buffer.SetRange 0 buffer.GetRaw buffer.Size).Size
           then ((s.m_tx_buffer.SetRange 0 buffer.GetRaw buffer.Size).GetRange 0 32).2
           else s.m_buffer_offset)
    ∧ accepted (s.PerformTransfer buffer ret).2.2 ≤ 1 := by
  unfold PerformTransfer
  rw [if_pos hoff]
  unfold SendInitialChunk SendChunk
  exact ⟨rfl, rfl, accepted_single_le _⟩

theorem getRange_zero_long (T : DmxBuffer) (h : 32 < T.Size) : (T.GetRange 0 32).2 = 32 := by
  unfold DmxBuffer.Size at h
  unfold DmxBuffer.GetRange
  rw [if_neg (by omega)]
  simp only []
  omega

/-- C15: `OpenNodleU1Widget` returns a handle exactly when `OpenDevice`
succeeds, `DetachKernelDriver` returns 0 or `LIBUSB_ERROR_NOT_FOUND`,
`SetConfiguration` returns 0 and `ClaimInterface` returns 0. The calls are
made in this order and stop at the first step that fails; when that step
comes after a successful open, one `Close` follows it and NULL is returned;
when the open fails or every step succeeds, `Close` is not called. -/
theorem C15_OpenNodleU1Widget_steps (a : WidgetAnswers) :
    ((OpenNodleU1Widget a).1.isSome = true ↔
        a.openOk = true ∧ (a.detach = 0 ∨ a.detach = LIBUSB_ERROR_NOT_FOUND)
          ∧ a.setConfiguration = 0 ∧ a.claim = 0)
    ∧ ((OpenNodleU1Widget a).1.isSome = true →
        (OpenNodleU1Widget a).1 = some a.usb_handle
        ∧ (OpenNodleU1Widget a).2
          = [AdaptorCall.OpenDevice, AdaptorCall.DetachKernelDriver INTERFACE,
              AdaptorCall.SetConfiguration CONFIGURATION, AdaptorCall.ClaimInterface INTERFACE])
    ∧ (a.openOk = false → (OpenNodleU1Widget a).2 = [AdaptorCall.OpenDevice])
    ∧ (a.openOk = true → ¬ (a.detach = 0 ∨ a.detach = LIBUSB_ERROR_NOT_FOUND) →
        (OpenNodleU1Widget a).2
          = [AdaptorCall.OpenDevice, AdaptorCall.DetachKernelDriver INTERFACE,
              AdaptorCall.Close])
    ∧ (a.openOk = true → (a.detach = 0 ∨ a.detach = LIBUSB_ERROR_NOT_FOUND) →
        a.setConfiguration ≠ 0 →
        (OpenNodleU1Widget a).2
          = [AdaptorCall.OpenDevice, AdaptorCall.DetachKernelDriver INTERFACE,
              AdaptorCall.SetConfiguration CONFIGURATION, AdaptorCall.Close])
    ∧ (a.openOk = true → (a.detach = 0 ∨ a.detach = LIBUSB_ERROR_NOT_FOUND) →
        a.setConfiguration = 0 → a.claim ≠ 0 →
        (OpenNodleU1Widget a).2
          = [AdaptorCall.OpenDevice, AdaptorCall.DetachKernelDriver INTERFACE,
              AdaptorCall.SetConfiguration CONFIGURATION, AdaptorCall.ClaimInterface INTERFACE,
              AdaptorCall.Close])
    ∧ (a.openOk = true → (OpenNodleU1Widget a).1 = none →
        (OpenNodleU1Widget a).2.count AdaptorCall.Close = 1
        ∧ (OpenNodleU1Widget a).2.getLast? = some AdaptorCall.Close) := by
  obtain ⟨openOk, h, detach, setc, claim⟩ := a
  unfold OpenNodleU1Widget
  simp only []
  cases openOk
  · simp
  · by_cases hd : detach = 0 ∨ detach = LIBUSB_ERROR_NOT_FOUND
    · have hd' : ¬ (detach ≠ 0 ∧ detach ≠ LIBUSB_ERROR_NOT_FOUND) := by
        intro hc; rcases hd with h0 | h1
        · exact hc.1 h0
        · exact hc.2 h1
      by_cases hs : setc = 0
      · by_cases hc : claim = 0
        · simp [hd, hd', hs, hc]
        · simp [hd, hd', hs, hc]
      · simp [hd, hd', hs]
    · have hd' : detach ≠ 0 ∧ detach ≠ LIBUSB_ERROR_NOT_FOUND := by
        constructor
        · intro h0; exact hd (Or.inl h0)
        · intro h1; exact hd (Or.inr h1)
      simp [hd, hd']

/-- C15, at an adaptor on which every step succeeds and at one on which
`ClaimInterface` fails with `LIBUSB_ERROR_BUSY`. -/
theorem C15_OpenNodleU1Widget_steps_witness :
    (OpenNodleU1Widget goodAnswers).1 = some goodAnswers.usb_handle
    ∧ (OpenNodleU1Widget { goodAnswers with claim := -6 }).2.count AdaptorCall.Close = 1 :=
  ⟨((C15_OpenNodleU1Widget_steps goodAnswers).2.1 (by decide)).1,
    ((C15_OpenNodleU1Widget_steps { goodAnswers with claim := -6 }).2.2.2.2.2.2 rfl
      (by decide)).1⟩

/-- C16: for every mode value, `SetInterfaceMode` hands the adaptor exactly
one transfer: endpoint `WRITE_ENDPOINT`, length 33, a packet of 33 bytes
whose byte 0 is 16, whose byte 1 is the mode modulo 256 and whose bytes 2..32
are 0; it returns true exactly when the transfer returned 0. -/
theorem C16_SetInterfaceMode_packet (mode : Nat) (ret : Int) :
    (SetInterfaceMode mode ret).2
        = [⟨WRITE_ENDPOINT, 16 :: (mode % 256) :: List.replicate 31 0, 33, URB_TIMEOUT_MS, ret⟩]
    ∧ (16 :: (mode % 256) :: List.replicate 31 0).length = 33
    ∧ ((SetInterfaceMode mode ret).1 = true ↔ ret = 0) := by
  refine ⟨rfl, by simp, ?_⟩
  simp [SetInterfaceMode]

/-! ## The driver facades (C12, C13, C14) -/

/-- C12: in both variants the mode bits select the components. When
`SynchronousNodleU1::Init` succeeds on a fresh object, and after the
constructor of `AsynchronousNodleU1`, a sender exists exactly when
`mode & 2` is not 0 and a receiver exactly when `mode & 4` is not 0 (mode 0:
neither; mode 2: a sender only). `SendDMX` of either variant returns false
and changes nothing when there is no sender, and otherwise returns what
`SendDMX` of the sender returns. -/
theorem C12_mode_bits_select_components :
    (∀ (w : SynchronousNodleU1) (a : WidgetAnswers) (modeRet : Int) (ss rs : Bool),
      w.m_sender = none → w.m_receiver = none → (w.Init a modeRet ss rs).1 = true →
      ((w.Init a modeRet ss rs).2.1.m_sender.isSome = true ↔ w.m_mode &&& 2 ≠ 0)
      ∧ ((w.Init a modeRet ss rs).2.1.m_receiver.isSome = true ↔ w.m_mode &&& 4 ≠ 0))
    ∧ (∀ (mode : Nat) (packet : List Nat),
      ((AsynchronousNodleU1.new mode packet).m_sender.isSome = true ↔ mode &&& 2 ≠ 0)
      ∧ ((AsynchronousNodleU1.new mode packet).m_receiver.isSome = true ↔ mode &&& 4 ≠ 0))
    ∧ (∀ (packet : List Nat),
      (AsynchronousNodleU1.new 0 packet).m_sender = none
      ∧ (AsynchronousNodleU1.new 0 packet).m_receiver = none
      ∧ (AsynchronousNodleU1.new 2 packet).m_sender.isSome = true
      ∧ (AsynchronousNodleU1.new 2 packet).m_receiver = none)
    ∧ (∀ (w : SynchronousNodleU1)
        (f : NodleU1ThreadedSender → DmxBuffer → Bool × NodleU1ThreadedSender)
        (buffer : DmxBuffer),
      (w.m_sender = none → w.SendDMX f buffer = (false, w))
      ∧ (∀ s, w.m_sender = some s → (w.SendDMX f buffer).1 = (f s buffer).1))
    ∧ (∀ (w : AsynchronousNodleU1)
        (f : NodleU1AsyncUsbSender → DmxBuffer → Bool × NodleU1AsyncUsbSender)
        (buffer : DmxBuffer),
      (w.m_sender = none → w.SendDMX f buffer = (false, w))
      ∧ (∀ s, w.m_sender = some s → (w.SendDMX f buffer).1 = (f s buffer).1)) := by
  refine ⟨?_, ?_, ?_, ?_, ?_⟩
  · intro w a modeRet ss rs hs hr
    unfold SynchronousNodleU1.Init
    cases (OpenNodleU1Widget a).1 with
    | none => intro h; exact absurd h (by simp)
    | some usb_handle =>
      simp only []
      by_cases h2 : w.m_mode &&& 2 = 0 <;> by_cases h4 : w.m_mode &&& 4 = 0 <;>
        cases ss <;> cases rs <;> simp [h2, h4, hs, hr]
  · intro mode packet
    unfold AsynchronousNodleU1.new
    by_cases h2 : mode &&& 2 = 0 <;> by_cases h4 : mode &&& 4 = 0 <;> simp [h2, h4]
  · intro packet
    exact ⟨rfl, rfl, rfl, rfl⟩
  · intro w f buffer
    unfold SynchronousNodleU1.SendDMX
    constructor
    · intro h; rw [h]
    · intro s h; rw [h]
  · intro w f buffer
    unfold AsynchronousNodleU1.SendDMX
    constructor
    · intro h; rw [h]
    · intro s h; rw [h]

/-- C12, at mode 0 and mode 2 of the threaded variant on a working adaptor. -/
theorem C12_mode_bits_select_components_witness :
    (((SynchronousNodleU1.new 2).Init goodAnswers 0 true true).2.1.m_sender.isSome = true
      ↔ (SynchronousNodleU1.new 2).m_mode &&& 2 ≠ 0)
    ∧ (((SynchronousNodleU1.new 2).Init goodAnswers 0 true true).2.1.m_receiver.isSome = true
      ↔ (SynchronousNodleU1.new 2).m_mode &&& 4 ≠ 0) :=
  C12_mode_bits_select_components.1 (SynchronousNodleU1.new 2) goodAnswers 0 true true
    rfl rfl (by decide)

/-- C13: `SynchronousNodleU1::Init` returns true exactly when
`OpenNodleU1Widget` returned a handle, the sender started if `mode & 2`
selects it, and the receiver started if `mode & 4` selects it; the code
returned by the mode-select transfer changes neither the result nor the
object. -/
theorem C13_Init_result (w : SynchronousNodleU1) (a : WidgetAnswers) (modeRet : Int)
    (ss rs : Bool) :
    ((w.Init a modeRet ss rs).1 = true ↔
        (OpenNodleU1Widget a).1.isSome = true
        ∧ (w.m_mode &&& 2 ≠ 0 → ss = true) ∧ (w.m_mode &&& 4 ≠ 0 → rs = true))
    ∧ (∀ other : Int, (w.Init a other ss rs).1 = (w.Init a modeRet ss rs).1
        ∧ (w.Init a other ss rs).2.1 = (w.Init a modeRet ss rs).2.1) := by
  unfold SynchronousNodleU1.Init
  cases (OpenNodleU1Widget a).1 with
  | none => simp
  | some usb_handle =>
    simp only []
    by_cases h2 : w.m_mode &&& 2 = 0 <;> by_cases h4 : w.m_mode &&& 4 = 0 <;>
      cases ss <;> cases rs <;> simp [h2, h4]

/-- C14 (what the code does): with both mode bits set, the sender started
and the receiver failing to start, `Init` returns false while `m_sender`
stays set to the started sender. -/
theorem C14_sender_remains_after_failed_Init :
    ((SynchronousNodleU1.new 6).Init goodAnswers 0 true false).1 = false
    ∧ ((SynchronousNodleU1.new 6).Init goodAnswers 0 true false).2.1.m_sender
      = some NodleU1ThreadedSender.new
    ∧ ((SynchronousNodleU1.new 6).Init goodAnswers 0 true false).2.1.m_receiver = none := by
  decide

/-! ## The working frame of the threaded sender (C11) -/

/-- C11, as stated, fails: a pass with the 512-channel frame of all 10 leaves
that frame as working frame, and a following pass with a one-channel frame
(channel 0 at 7) encodes a working frame of 512 channels whose channels 1
and 2 are still 10. -/
theorem C11_short_frame_keeps_old_channels :
    (NodleU1ThreadedSender.new.TransmitBuffer allOk (DmxBuffer.ofFrame frameA)).map
        (fun r => r.sender) = some ⟨DmxBuffer.ofFrame frameA, DmxBuffer.ofFrame frameA⟩
    ∧ (TransmitBuffer ⟨DmxBuffer.ofFrame frameA, DmxBuffer.ofFrame frameA⟩ allOk
          shortFrame).map
        (fun r => (r.sender.m_tx_buffer.data.take 3, r.sender.m_tx_buffer.length))
      = some ([7, 10, 10], 512) := by
  decide

/-- C11, amended: for every input frame handed to `TransmitBuffer`, with
fewer than 512 channels or not, the working frame of the pass has 512
channels; its channels below the length of the input frame hold the input
frame, and its channels from there on keep the value they had in the working
frame before the pass. With an input frame of 512 channels the working frame
is the input frame. -/
theorem C11_working_frame_overlay (s : NodleU1ThreadedSender) (adaptor : Nat → Int)
    (buffer : DmxBuffer) (hb : buffer.WF)
    (ht1 : s.m_tx_buffer.data.length = 512) (ht2 : s.m_tx_buffer.length = 512)
    (hs1 : s.m_last_tx_buffer.data.length = 512) (hs2 : s.m_last_tx_buffer.length = 512) :
    ∃ r, TransmitBuffer s adaptor buffer = some r
      ∧ r.sender.m_tx_buffer.length = 512
      ∧ r.sender.m_tx_buffer.data.length = 512
      ∧ (∀ c, c < buffer.length → r.sender.m_tx_buffer.data[c]? = buffer.data[c]?)
      ∧ (∀ c, buffer.length ≤ c → r.sender.m_tx_buffer.data[c]? = s.m_tx_buffer.data[c]?)
      ∧ (buffer.length = 512 → r.sender.m_tx_buffer.data = buffer.data) := by
  obtain ⟨hset, hlen⟩ := setRange_request s.m_tx_buffer buffer ht1 ht2 hb
  have hlast : s.m_last_tx_buffer = ⟨s.m_last_tx_buffer.data, 512⟩ := by
    rw [← hs2]
  have heq := TransmitBuffer_eq s adaptor buffer _ s.m_last_tx_buffer.data hlen hs1 hset hlast
  have hb1 : buffer.data.length = 512 := hb.1
  have hb2 : buffer.length ≤ 512 := hb.2
  have htl : (buffer.data.take buffer.length).length = buffer.length := by
    rw [List.length_take, hb1]; omega
  refine ⟨_, heq, rfl, hlen, fun c hc => ?_, fun c hc => ?_, fun h512 => ?_⟩
  · show (buffer.data.take buffer.length ++ s.m_tx_buffer.data.drop buffer.length)[c]? = _
    rw [List.getElem?_append_left (by rw [htl]; exact hc), List.getElem?_take, if_pos hc]
  · show (buffer.data.take buffer.length ++ s.m_tx_buffer.data.drop buffer.length)[c]? = _
    rw [List.getElem?_append_right (by rw [htl]; exact hc), htl, List.getElem?_drop,
      show buffer.length + (c - buffer.length) = c by omega]
  · show buffer.data.take buffer.length ++ s.m_tx_buffer.data.drop buffer.length = _
    rw [h512, List.take_of_length_le (by omega), List.drop_of_length_le (by omega),
      List.append_nil]

/-- C11 amended, at the sender left by a pass with the frame of all 10 and a
one-channel input frame. -/
theorem C11_working_frame_overlay_witness :
    ∃ r, TransmitBuffer ⟨DmxBuffer.ofFrame frameA, DmxBuffer.ofFrame frameA⟩ allOk shortFrame
        = some r
      ∧ r.sender.m_tx_buffer.length = 512
      ∧ (∀ c, shortFrame.length ≤ c →
          r.sender.m_tx_buffer.data[c]? = (DmxBuffer.ofFrame frameA).data[c]?) := by
  obtain ⟨r, h1, h2, _, _, h5, _⟩ := C11_working_frame_overlay
    ⟨DmxBuffer.ofFrame frameA, DmxBuffer.ofFrame frameA⟩ allOk shortFrame
    ⟨by decide, by decide⟩ (by decide) rfl (by decide) rfl
  exact ⟨r, h1, h2, h5⟩

/-! ## The asynchronous sender: failures, cycle end, short frames (C17 to C20) -/

/-- C17 (what the code does): when the submission fails, `m_buffer_offset`
keeps the value set before `SendChunk` was called. A fresh sender whose first
submission fails is left at offset 32 with nothing outstanding, and the next
`PerformTransfer` submits nothing; a failing `ContinueTransfer` at offset 32
leaves the offset at 64. -/
theorem C17_offset_kept_after_failed_submit :
    ((NodleU1AsyncUsbSender.new (List.replicate 33 0)).PerformTransfer
        (DmxBuffer.ofFrame frameA) (-1)).2.1.m_buffer_offset = 32
    ∧ accepted ((NodleU1AsyncUsbSender.new (List.replicate 33 0)).PerformTransfer
        (DmxBuffer.ofFrame frameA) (-1)).2.2 = 0
    ∧ (((NodleU1AsyncUsbSender.new (List.replicate 33 0)).PerformTransfer
        (DmxBuffer.ofFrame frameA) (-1)).2.1.PerformTransfer (DmxBuffer.ofFrame frameB) 0).2.2
      = []
    ∧ ((⟨DmxBuffer.ofFrame frameA, 32, chunk frameA 0⟩ :
        NodleU1AsyncUsbSender).ContinueTransfer (-1)).2.1.m_buffer_offset = 64
    ∧ accepted ((⟨DmxBuffer.ofFrame frameA, 32, chunk frameA 0⟩ :
        NodleU1AsyncUsbSender).ContinueTransfer (-1)).2.2 = 0 := by
  decide

/-- C18, as stated, fails: at the completion of the last chunk, with no send
pending the working buffer is kept as it is, and with a send pending it is
cleared. -/
theorem C18_reset_when_pending :
    (endOfCycleSender.PostTransferHook false 0).1.m_tx_buffer = DmxBuffer.ofFrame frameA
    ∧ (endOfCycleSender.PostTransferHook true 0).1.m_tx_buffer.Size = 0 := by
  decide

/-- C18, amended: when `PostTransferHook` handles the completion of the last
chunk of a cycle (the offset has reached the length of the working frame),
it submits nothing, sets `m_buffer_offset` to 0, and clears the working
buffer (`Reset`, size 0) exactly when a further send is pending; when no
send is pending the working buffer is left as it is. -/
theorem C18_cycle_end (s : NodleU1AsyncUsbSender) (pending : Bool) (ret : Int)
    (h : s.m_tx_buffer.Size ≤ s.m_buffer_offset) :
    (s.PostTransferHook pending ret).2 = []
    ∧ (s.PostTransferHook pending ret).1.m_buffer_offset = 0
    ∧ (pending = true → (s.PostTransferHook pending ret).1.m_tx_buffer = s.m_tx_buffer.Reset
        ∧ (s.PostTransferHook pending ret).1.m_tx_buffer.Size = 0)
    ∧ (pending = false → (s.PostTransferHook pending ret).1.m_tx_buffer = s.m_tx_buffer) := by
  obtain ⟨h1, h2, _, h4⟩ := PostTransferHook_last s pending ret h
  refine ⟨h1, h2, fun hp => ?_, fun hp => ?_⟩
  · rw [h4, if_pos hp]
    exact ⟨rfl, rfl⟩
  · rw [h4, hp]
    rfl

/-- C18 amended, at the end of a cycle over the frame of all 10. -/
theorem C18_cycle_end_witness :
    (endOfCycleSender.PostTransferHook true 0).2 = []
    ∧ (endOfCycleSender.PostTransferHook true 0).1.m_buffer_offset = 0 :=
  ⟨(C18_cycle_end endOfCycleSender true 0 (by decide)).1,
    (C18_cycle_end endOfCycleSender true 0 (by decide)).2.1⟩

/-- C19, as stated, fails: once the working frame has been reset, a request
with a one-channel frame is accepted at offset 0, its chunk is submitted, the
working frame has 1 channel, and `m_buffer_offset` is still 0. -/
theorem C19_offset_stays_zero_for_short_frame :
    afterResetSender.m_buffer_offset = 0
    ∧ afterResetSender.m_tx_buffer.Size = 0
    ∧ (afterResetSender.PerformTransfer shortFrame 0).2.1.m_tx_buffer.Size = 1
    ∧ accepted (afterResetSender.PerformTransfer shortFrame 0).2.2 = 1
    ∧ (afterResetSender.PerformTransfer shortFrame 0).2.1.m_buffer_offset = 0 := by
  decide

/-- C19, amended: a frame accepted by `PerformTransfer` at offset 0 that
leaves a working frame of more than 32 channels leaves `m_buffer_offset` at
32, the number of channels of the first chunk, hence above 0; when the
working frame has at most 32 channels the offset stays 0. -/
theorem C19_offset_after_initial_chunk (s : NodleU1AsyncUsbSender) (buffer : DmxBuffer)
    (ret : Int) (hoff : s.m_buffer_offset = 0) :
    (32 < (s.m_tx_buffer.SetRange 0 buffer.GetRaw buffer.Size).Size →
        (s.PerformTransfer buffer ret).2.1.m_buffer_offset = 32
        ∧ 0 < (s.PerformTransfer buffer ret).2.1.m_buffer_offset)
    ∧ ((s.m_tx_buffer.SetRange 0 buffer.GetRaw buffer.Size).Size ≤ 32 →
        (s.PerformTransfer buffer ret).2.1.m_buffer_offset = 0) := by
  obtain ⟨_, a2, _⟩ := PerformTransfer_accept s buffer ret hoff
  constructor
  · intro hlong
    have h32 := getRange_zero_long _ hlong
    rw [h32, if_pos hlong] at a2
    rw [a2]
    exact ⟨rfl, by omega⟩
  · intro hshort
    have hg : ((s.m_tx_buffer.SetRange 0 buffer.GetRaw buffer.Size).GetRange 0 32).2
        = (s.m_tx_buffer.SetRange 0 buffer.GetRaw buffer.Size).Size := by
      unfold DmxBuffer.Size at hshort ⊢
      unfold DmxBuffer.GetRange
      split
      · simp only []
        omega
      · simp only []
        omega
    rw [hg, if_neg (by omega)] at a2
    rw [a2, hoff]

/-- C19 amended, at a fresh sender and the frame of all 10. -/
theorem C19_offset_after_initial_chunk_witness :
    ((NodleU1AsyncUsbSender.new (List.replicate 33 0)).PerformTransfer
        (DmxBuffer.ofFrame frameA) 0).2.1.m_buffer_offset = 32 :=
  ((C19_offset_after_initial_chunk (NodleU1AsyncUsbSender.new (List.replicate 33 0))
    (DmxBuffer.ofFrame frameA) 0 rfl).1 (by decide)).1

/-- The packet built by the asynchronous sender: the index byte, the bytes
copied out of the working frame, and zeros up to 32 payload bytes, whatever
the packet array held before. -/
theorem packet_build (p bytes : List Nat) (v L : Nat) (hp : p.length = 33)
    (hL : bytes.length = L) :
    memset (memcpy (p.set 0 v) 1 bytes) (1 + L) 0 (32 - L)
      = v :: (bytes ++ List.replicate (32 - L) 0) := by
  match p, hp with
  | p0 :: rest, hp =>
    have hr : rest.length = 32 := by simpa using hp
    have h0 : List.drop (1 + L) (v :: rest) = List.drop L rest := by
      rw [Nat.add_comm 1 L, List.drop_succ_cons]
    have h1 : memcpy ((p0 :: rest).set 0 v) 1 bytes = v :: (bytes ++ rest.drop L) := by
      simp [memcpy, hL, h0]
    rw [h1]
    unfold memset memcpy
    have h2 : (v :: (bytes ++ rest.drop L)).take (1 + L) = v :: bytes := by
      rw [Nat.add_comm 1 L, List.take_succ_cons, List.take_left' hL]
    have h3 : (v :: (bytes ++ rest.drop L)).drop (1 + L + (List.replicate (32 - L) 0).length)
        = [] := by
      apply List.drop_of_length_le
      simp [hL, hr]
      omega
    rw [h2, h3]
    simp

/-- C20: in the asynchronous sender, for a working frame of `n` channels,
`n` from 1 to 512 and not a multiple of 32, the chunk of the final short
stride is the index byte followed by the `n mod 32` remaining channels and
then zeros up to 32 payload bytes, whatever `m_packet` held before: as built
by `ContinueTransfer` at the offset of that stride, and as built by
`SendInitialChunk` when `n < 32`. -/
theorem C20_short_stride_is_zero_padded :
    (∀ (s : NodleU1AsyncUsbSender) (ret : Int) (n : Nat),
      s.m_tx_buffer.length = n → s.m_tx_buffer.data.length = 512 →
      1 ≤ n → n ≤ 512 → n % 32 ≠ 0 → s.m_buffer_offset = 32 * (n / 32) →
      s.m_packet.length = 33 →
      (s.ContinueTransfer ret).2.2
        = [⟨(n / 32) :: ((s.m_tx_buffer.data.drop (32 * (n / 32))).take (n % 32)
            ++ List.replicate (32 - n % 32) 0), ret⟩])
    ∧ (∀ (s : NodleU1AsyncUsbSender) (buffer : DmxBuffer) (ret : Int) (n : Nat),
      (s.m_tx_buffer.SetRange 0 buffer.GetRaw buffer.Size).length = n →
      (s.m_tx_buffer.SetRange 0 buffer.GetRaw buffer.Size).data.length = 512 →
      1 ≤ n → n < 32 → s.m_packet.length = 33 →
      (s.SendInitialChunk buffer ret).2.2
        = [⟨0 :: ((s.m_tx_buffer.SetRange 0 buffer.GetRaw buffer.Size).data.take n
            ++ List.replicate (32 - n) 0), ret⟩]) := by
  constructor
  · intro s ret n hlen hdata h1 h512 hmod hoff hp
    have hg : s.m_tx_buffer.GetRange (32 * (n / 32)) 32
        = ((s.m_tx_buffer.data.drop (32 * (n / 32))).take (n % 32), n % 32) := by
      unfold DmxBuffer.GetRange
      rw [if_neg (by rw [hlen]; omega)]
      have hmin : min 32 (s.m_tx_buffer.length - 32 * (n / 32)) = n % 32 := by
        rw [hlen]; omega
      simp only [hmin]
    have hbl : ((s.m_tx_buffer.data.drop (32 * (n / 32))).take (n % 32)).length = n % 32 := by
      rw [List.length_take, List.length_drop, hdata]; omega
    have hidx : 32 * (n / 32) / 32 % 256 = n / 32 := by omega
    have hpk := packet_build s.m_packet _ (n / 32) (n % 32) hp hbl
    unfold ContinueTransfer SendChunk
    simp only [hoff, hg, hidx, hpk]
  · intro s buffer ret n hlen hdata h1 h32 hp
    have hg : (s.m_tx_buffer.SetRange 0 buffer.GetRaw buffer.Size).GetRange 0 32
        = ((s.m_tx_buffer.SetRange 0 buffer.GetRaw buffer.Size).data.take n, n) := by
      unfold DmxBuffer.GetRange
      rw [if_neg (by rw [hlen]; omega)]
      have hmin : min 32 ((s.m_tx_buffer.SetRange 0 buffer.GetRaw buffer.Size).length - 0)
          = n := by
        rw [hlen]; omega
      simp only [hmin, List.drop_zero]
    have hbl : ((s.m_tx_buffer.SetRange 0 buffer.GetRaw buffer.Size).data.take n).length
        = n := by
      rw [List.length_take, hdata]; omega
    have hpk := packet_build s.m_packet _ 0 n hp hbl
    unfold SendInitialChunk SendChunk
    simp only [hg, hpk]

/-- C20, at a working frame of 40 channels, all 10, whose first chunk is in
the packet array: the second chunk carries 8 channels and 24 zeros. -/
theorem C20_short_stride_is_zero_padded_witness :
    (shortCycleSender.ContinueTransfer 0).2.2
      = [⟨1 :: (List.replicate 8 10 ++ List.replicate 24 0), 0⟩] :=
  (C20_short_stride_is_zero_padded.1 shortCycleSender 0 40 rfl (by decide) (by decide)
    (by decide) (by decide) rfl (by decide)).trans (by decide)

/-! ## The threaded senders that exist -/

theorem passSpec_k_le (adaptor : Nat → Int) (F L : List Nat) (usb : List Nat)
    (w : List Transfer) : (passSpec adaptor F L 16 0 usb w).k ≤ 16 := by
  rcases passSpec_cases adaptor F L 16 0 usb w with ⟨_, h2, _⟩ | ⟨_, k, ret, _, h3, _, h5, _⟩
  · rw [h2]
  · rw [h5]; omega

theorem passSpec_wire_chunks (adaptor : Nat → Int) (F L : List Nat) (usb : List Nat) :
    ∀ t ∈ (passSpec adaptor F L 16 0 usb []).wire, ∃ k, k < 16 ∧ t.packet = chunk F k := by
  intro t ht
  rcases passSpec_cases adaptor F L 16 0 usb [] with ⟨_, _, h3⟩ | ⟨_, k, ret, _, h3, _, _, h6⟩
  · simp only [h3, List.nil_append, List.mem_map] at ht
    obtain ⟨m, hm, rfl⟩ := ht
    have := mem_sentStrides F L 0 16 m hm
    exact ⟨m, by omega, rfl⟩
  · rw [List.nil_append, Nat.sub_zero] at h6
    simp only [h6, List.mem_append, List.mem_map, List.mem_singleton] at ht
    rcases ht with ⟨m, hm, rfl⟩ | rfl
    · have := mem_sentStrides F L 0 k m hm
      exact ⟨m, by omega, rfl⟩
    · exact ⟨k, by omega, rfl⟩

/-- Every threaded sender that exists holds two full frames. -/
theorem threaded_reachable_inv (s : NodleU1ThreadedSender) (h : s.Reachable) :
    s.m_tx_buffer.data.length = 512 ∧ s.m_tx_buffer.length = 512
      ∧ s.m_last_tx_buffer.data.length = 512 ∧ s.m_last_tx_buffer.length = 512 := by
  induction h with
  | new => exact ⟨by decide, rfl, by decide, rfl⟩
  | pass s adaptor buffer r _ hb hr ih =>
    obtain ⟨t1, t2, l1, l2⟩ := ih
    obtain ⟨hset, hlen⟩ := setRange_request s.m_tx_buffer buffer t1 t2 hb
    have hlast : s.m_last_tx_buffer = ⟨s.m_last_tx_buffer.data, 512⟩ := by
      rw [← l2]
    have heq := TransmitBuffer_eq s adaptor buffer _ s.m_last_tx_buffer.data hlen l1 hset hlast
    rw [heq] at hr
    have hr' := (Option.some.inj hr).symm
    subst hr'
    exact ⟨hlen, rfl,
      mix_length _ _ _ hlen l1 (passSpec_k_le adaptor _ _ _ _), rfl⟩

/-! ## The threaded sender: a failing transfer ends the pass (C9) -/

/-- A pass over the working frame `F` and the shadow `L`: the result, the
last transfer and what a failing transfer leaves. -/
theorem TransmitBuffer_failure (s : NodleU1ThreadedSender) (adaptor : Nat → Int)
    (buffer : DmxBuffer) (F L : List Nat) (hF : F.length = 512) (hL : L.length = 512)
    (htx : s.m_tx_buffer.SetRange 0 buffer.GetRaw buffer.Size = ⟨F, 512⟩)
    (hlast : s.m_last_tx_buffer = ⟨L, 512⟩) :
    ∃ r, TransmitBuffer s adaptor buffer = some r
      ∧ r.sender.m_tx_buffer = ⟨F, 512⟩
      ∧ (r.result = true ↔ ∀ t ∈ r.wire, t.ret = 0)
      ∧ ∀ t ∈ r.wire, t.ret ≠ 0 →
          r.result = false
          ∧ r.wire.getLast? = some t
          ∧ ∃ k, k < 16 ∧ t.packet = chunk F k
            ∧ (∀ u ∈ r.wire, ∃ m, m ≤ k ∧ u.packet = chunk F m)
            ∧ (∀ m, k < m → stride r.sender.m_last_tx_buffer.data m = stride L m) := by
  have heq := TransmitBuffer_eq s adaptor buffer F L hF hL htx hlast
  refine ⟨_, heq, rfl, ?_⟩
  rcases passSpec_cases adaptor F L 16 0 (List.replicate DATABLOCK_SIZE 0) [] with
    ⟨h1, _, h3⟩ | ⟨h1, k, ret, _, h3, h4, h5, h6⟩
  · have hz : ∀ t ∈ (passSpec adaptor F L 16 0 (List.replicate DATABLOCK_SIZE 0) []).wire,
        t.ret = 0 := by
      intro t ht
      simp only [h3, List.nil_append, List.mem_map] at ht
      obtain ⟨k, _, rfl⟩ := ht
      rfl
    refine ⟨⟨fun _ => hz, fun _ => h1⟩, fun t ht hne => absurd (hz t ht) hne⟩
  · rw [List.nil_append, Nat.sub_zero] at h6
    rw [Nat.zero_add] at h3
    have hmem : ∀ t ∈ (passSpec adaptor F L 16 0 (List.replicate DATABLOCK_SIZE 0) []).wire,
        (∃ m, m < k ∧ t = ⟨chunk F m, 0⟩) ∨ t = ⟨chunk F k, ret⟩ := by
      intro t ht
      simp only [h6, List.mem_append, List.mem_map, List.mem_singleton] at ht
      rcases ht with ⟨m, hm, rfl⟩ | rfl
      · left
        have := mem_sentStrides F L 0 k m hm
        exact ⟨m, by omega, rfl⟩
      · right; rfl
    refine ⟨⟨fun h => ?_, fun h => ?_⟩, fun t ht hne => ?_⟩
    · rw [h1] at h; exact absurd h (by simp)
    · have := h ⟨chunk F k, ret⟩ (by simp [h6])
      exact absurd this h4
    · rcases hmem t ht with ⟨m, _, rfl⟩ | rfl
      · exact absurd rfl hne
      · refine ⟨h1, by simp [h6], k, h3, rfl, fun u hu => ?_, fun m hm => ?_⟩
        · rcases hmem u hu with ⟨m, hm, rfl⟩ | rfl
          · exact ⟨m, by omega, rfl⟩
          · exact ⟨k, le_refl k, rfl⟩
        · show stride (mix F L _) m = stride L m
          rw [h5]
          exact stride_mix_ge F L (k + 1) m hF (by omega) (by omega)

/-- C9: for every threaded sender that exists, every well-formed input frame
(of any length up to 512 channels) and every adaptor, `TransmitBuffer`
returns, and it returns true exactly when every transfer it attempted
succeeded. A transfer that fails is that of the chunk of some stride `k` of
the working frame (the input frame copied over the working frame of the
sender); it is the last transfer of the pass, the pass returns false, every
chunk handed to the adaptor in the pass has an index at most `k`, and the
strides of `m_last_tx_buffer` with an index greater than `k` are what they
were before the pass. -/
theorem C9_TransmitBuffer_aborts_on_failure (s : NodleU1ThreadedSender)
    (adaptor : Nat → Int) (buffer : DmxBuffer) (hs : s.Reachable) (hb : buffer.WF) :
    ∃ r, TransmitBuffer s adaptor buffer = some r
      ∧ r.sender.m_tx_buffer = s.m_tx_buffer.SetRange 0 buffer.GetRaw buffer.Size
      ∧ (r.result = true ↔ ∀ t ∈ r.wire, t.ret = 0)
      ∧ ∀ t ∈ r.wire, t.ret ≠ 0 →
          r.result = false
          ∧ r.wire.getLast? = some t
          ∧ ∃ k, k < 16 ∧ t.packet = chunk r.sender.m_tx_buffer.data k
            ∧ (∀ u ∈ r.wire, ∃ m, m ≤ k ∧ u.packet = chunk r.sender.m_tx_buffer.data m)
            ∧ (∀ m, k < m → stride r.sender.m_last_tx_buffer.data m
                = stride s.m_last_tx_buffer.data m) := by
  obtain ⟨t1, t2, l1, l2⟩ := threaded_reachable_inv s hs
  obtain ⟨hset, hlen⟩ := setRange_request s.m_tx_buffer buffer t1 t2 hb
  have hlast : s.m_last_tx_buffer = ⟨s.m_last_tx_buffer.data, 512⟩ := by
    rw [← l2]
  obtain ⟨r, h1, h2, h3, h4⟩ :=
    TransmitBuffer_failure s adaptor buffer _ s.m_last_tx_buffer.data hlen l1 hset hlast
  refine ⟨r, h1, h2.trans hset.symm, h3, ?_⟩
  rw [h2]
  exact h4

/-- C9, at the constructed sender, a one-channel input frame and an adaptor
that refuses the first transfer: the pass attempts the chunk of stride 0,
returns false, and the theorem applies to it. -/
theorem C9_TransmitBuffer_aborts_on_failure_witness :
    (TransmitBuffer NodleU1ThreadedSender.new firstFails shortFrame).map
        (fun r => (r.result, r.wire.map Transfer.ret)) = some (false, [-1])
    ∧ ∃ r, TransmitBuffer NodleU1ThreadedSender.new firstFails shortFrame = some r
      ∧ (r.result = true ↔ ∀ t ∈ r.wire, t.ret = 0)
      ∧ ∀ t ∈ r.wire, t.ret ≠ 0 → r.result = false ∧ r.wire.getLast? = some t := by
  refine ⟨by decide, ?_⟩
  obtain ⟨r, h1, _, h3, h4⟩ := C9_TransmitBuffer_aborts_on_failure NodleU1ThreadedSender.new
    firstFails shortFrame NodleU1ThreadedSender.Reachable.new ⟨by decide, by decide⟩
  exact ⟨r, h1, h3, fun t ht hne => ⟨(h4 t ht hne).1, (h4 t ht hne).2.1⟩⟩

/-! ## Index bytes (C22) and return values (C23) of the senders -/

theorem getRange_shape (b : DmxBuffer) (slot : Nat) (hd : b.data.length = 512)
    (hl : b.length ≤ 512) :
    (b.GetRange slot 32).1.length = (b.GetRange slot 32).2
    ∧ (b.GetRange slot 32).2 = (if b.length ≤ slot then 0 else min 32 (b.length - slot)) := by
  unfold DmxBuffer.GetRange
  by_cases h : b.length ≤ slot
  · rw [if_pos h, if_pos h]
    exact ⟨rfl, rfl⟩
  · rw [if_neg h, if_neg h]
    refine ⟨?_, rfl⟩
    show ((b.data.drop slot).take (min 32 (b.length - slot))).length = min 32 (b.length - slot)
    rw [List.length_take, List.length_drop, hd]
    exact Nat.min_eq_left (le_trans (Nat.min_le_right _ _) (by omega))

theorem setRange_data_length (T : DmxBuffer) (src : List Nat) (n : Nat)
    (hd : T.data.length = 512) : (T.SetRange 0 src n).data.length = 512 := by
  unfold DmxBuffer.SetRange
  simp only [DMX_UNIVERSE_SIZE]
  split
  · exact hd
  · split
    · exact hd
    · simp only [memcpy, List.take_zero, List.nil_append, Nat.zero_add, List.length_append,
        List.length_take, List.length_drop, hd]
      omega

theorem packet_build_length (p bytes : List Nat) (v L : Nat) (hp : p.length = 33)
    (hL : bytes.length = L) (hle : L ≤ 32) :
    (memset (memcpy (p.set 0 v) 1 bytes) (1 + L) 0 (32 - L)).length = 33
    ∧ (memset (memcpy (p.set 0 v) 1 bytes) (1 + L) 0 (32 - L))[0]? = some v := by
  rw [packet_build p bytes v L hp hL]
  constructor
  · simp [hL]; omega
  · simp

/-- The chunk submitted by `SendInitialChunk`, and the sender it leaves. -/
theorem SendInitialChunk_shape (s : NodleU1AsyncUsbSender) (buffer : DmxBuffer) (ret : Int)
    (h : AsyncInv s) (hoff : s.m_buffer_offset = 0) :
    AsyncInv (s.SendInitialChunk buffer ret).2.1
    ∧ (s.SendInitialChunk buffer ret).1 = ((ret == 0) == false)
    ∧ ∃ p, (s.SendInitialChunk buffer ret).2.2 = [⟨p, ret⟩] ∧ p[0]? = some 0 := by
  obtain ⟨hd, hl, hp, _⟩ := h
  have hd' := setRange_data_length s.m_tx_buffer buffer.GetRaw buffer.Size hd
  have hl' := setRange_length_le s.m_tx_buffer 0 buffer.GetRaw buffer.Size hl
  obtain ⟨g1, g2⟩ := getRange_shape _ 0 hd' hl'
  have hle : ((s.m_tx_buffer.SetRange 0 buffer.GetRaw buffer.Size).GetRange 0 32).2 ≤ 32 := by
    rw [g2]; split <;> omega
  obtain ⟨b1, b2⟩ := packet_build_length s.m_packet _ 0 _ hp g1 hle
  unfold SendInitialChunk SendChunk
  refine ⟨⟨hd', hl', b1, ?_⟩, rfl, _, rfl, b2⟩
  left
  have key : ∀ g L : Nat, g = (if L ≤ 0 then 0 else min 32 (L - 0)) →
      (if g < L then g else 0) % 32 = 0 := by
    intro g L hg
    split at hg <;> split <;> omega
  rw [hoff]
  exact key _ _ g2

/-- The chunk submitted by `ContinueTransfer`, and the sender it leaves. -/
theorem ContinueTransfer_shape (s : NodleU1AsyncUsbSender) (ret : Int) (h : AsyncInv s)
    (hlt : s.m_buffer_offset < s.m_tx_buffer.Size) :
    AsyncInv (s.ContinueTransfer ret).2.1
    ∧ s.m_buffer_offset % 32 = 0 ∧ s.m_buffer_offset / 32 ≤ 15
    ∧ (s.ContinueTransfer ret).1 = ((ret == 0) == false)
    ∧ ∃ p, (s.ContinueTransfer ret).2.2 = [⟨p, ret⟩] ∧ p[0]? = some (s.m_buffer_offset / 32) := by
  obtain ⟨hd, hl, hp, hm⟩ := h
  unfold DmxBuffer.Size at hlt
  have hmod : s.m_buffer_offset % 32 = 0 := by
    rcases hm with h0 | h1
    · exact h0
    · omega
  obtain ⟨g1, g2⟩ := getRange_shape s.m_tx_buffer s.m_buffer_offset hd hl
  rw [if_neg (by omega)] at g2
  have hle : (s.m_tx_buffer.GetRange s.m_buffer_offset 32).2 ≤ 32 := by
    rw [g2]; omega
  have hidx : s.m_buffer_offset / 32 % 256 = s.m_buffer_offset / 32 := by omega
  obtain ⟨b1, b2⟩ := packet_build_length s.m_packet _ (s.m_buffer_offset / 32 % 256) _ hp g1 hle
  unfold ContinueTransfer SendChunk
  refine ⟨⟨hd, hl, b1, ?_⟩, hmod, by omega, rfl, _, rfl, b2.trans (congrArg some hidx)⟩
  show (s.m_buffer_offset + (s.m_tx_buffer.GetRange s.m_buffer_offset 32).2) % UINT_MOD % 32 = 0
    ∨ s.m_tx_buffer.length
      ≤ (s.m_buffer_offset + (s.m_tx_buffer.GetRange s.m_buffer_offset 32).2) % UINT_MOD
  rw [g2]
  unfold UINT_MOD
  omega

theorem PerformTransfer_inv (s : NodleU1AsyncUsbSender) (buffer : DmxBuffer) (ret : Int)
    (h : AsyncInv s) : AsyncInv (s.PerformTransfer buffer ret).2.1 := by
  unfold PerformTransfer
  by_cases hoff : s.m_buffer_offset = 0
  · rw [if_pos hoff]
    exact (SendInitialChunk_shape s buffer ret h hoff).1
  · rw [if_neg hoff]
    exact h

theorem PostTransferHook_inv (s : NodleU1AsyncUsbSender) (pending : Bool) (ret : Int)
    (h : AsyncInv s) : AsyncInv (s.PostTransferHook pending ret).1 := by
  by_cases hlt : s.m_buffer_offset < s.m_tx_buffer.Size
  · unfold PostTransferHook
    rw [if_pos hlt]
    exact (ContinueTransfer_shape s ret h hlt).1
  · obtain ⟨_, h2, h3, h4⟩ := PostTransferHook_last s pending ret (by omega)
    obtain ⟨hd, hl, hp, _⟩ := h
    refine ⟨?_, ?_, by rw [h3]; exact hp, Or.inl (by rw [h2])⟩
    · rw [h4]; cases pending
      · exact hd
      · exact hd
    · rw [h4]; cases pending
      · exact hl
      · exact Nat.zero_le _

/-- The invariant holds in every state that a sequence of requests and
completions reaches. -/
theorem run_inv : ∀ (evs : List AsyncEvent) (m m1 : AsyncMachine),
    AsyncInv m.sender → m.run evs = some m1 → AsyncInv m1.sender := by
  intro evs
  induction evs with
  | nil =>
    intro m m1 h hr
    simp only [AsyncMachine.run, Option.some.injEq] at hr
    rw [← hr]; exact h
  | cons e rest ih =>
    intro m m1 h hr
    cases e with
    | request buffer ret =>
      simp only [AsyncMachine.run, AsyncMachine.step] at hr
      exact ih _ m1 (PerformTransfer_inv m.sender buffer ret h) hr
    | completion pending ret =>
      simp only [AsyncMachine.run, AsyncMachine.step] at hr
      by_cases hout : m.outstanding = 0
      · rw [if_pos hout] at hr
        exact absurd hr (by simp)
      · rw [if_neg hout] at hr
        exact ih _ m1 (PostTransferHook_inv m.sender pending ret h) hr

theorem asyncInv_init (packet : List Nat) (hp : packet.length = 33) :
    AsyncInv (AsyncMachine.init packet).sender :=
  ⟨List.length_replicate 512 0, Nat.le_refl 512, hp, Or.inl rfl⟩

/-- C22: every data chunk has an index byte below 16, the opcode of the
mode-select packet. In a pass of `TransmitBuffer` the working frame has 512
channels and every chunk handed to the adaptor starts with a byte that is at
most 15. In every state of the asynchronous sender reached by requests and
completions, when `ContinueTransfer` is about to run (the offset is below
the length of the working frame) the offset is a multiple of 32, the working
frame has at most 512 channels and `m_buffer_offset / 32` is at most 15; the
chunk a completion submits starts with a byte that is at most 15 and the
chunk a request submits starts with 0. The mode-select packet starts with
16. -/
theorem C22_index_byte_below_16 :
    (∀ (s : NodleU1ThreadedSender) (adaptor : Nat → Int) (buffer : DmxBuffer),
      s.Reachable → buffer.WF →
      ∃ r, TransmitBuffer s adaptor buffer = some r
        ∧ r.sender.m_tx_buffer.Size = 512
        ∧ ∀ t ∈ r.wire, ∃ k, k ≤ 15 ∧ t.packet[0]? = some k)
    ∧ (∀ (packet : List Nat) (evs : List AsyncEvent) (m : AsyncMachine),
      packet.length = 33 → (AsyncMachine.init packet).run evs = some m →
      (m.sender.m_buffer_offset < m.sender.m_tx_buffer.Size →
          m.sender.m_buffer_offset % 32 = 0 ∧ m.sender.m_tx_buffer.Size ≤ 512
          ∧ m.sender.m_buffer_offset / 32 ≤ 15)
      ∧ (∀ (pending : Bool) (ret : Int), ∀ t ∈ (m.sender.PostTransferHook pending ret).2,
          ∃ k, k ≤ 15 ∧ t.packet[0]? = some k)
      ∧ (∀ (buffer : DmxBuffer) (ret : Int), ∀ t ∈ (m.sender.PerformTransfer buffer ret).2.2,
          t.packet[0]? = some 0))
    ∧ (∀ (mode : Nat) (ret : Int), ∀ c ∈ (SetInterfaceMode mode ret).2, c.data[0]? = some 16) := by
  refine ⟨?_, ?_, ?_⟩
  · intro s adaptor buffer hs hb
    obtain ⟨t1, t2, l1, l2⟩ := threaded_reachable_inv s hs
    obtain ⟨hset, hlen⟩ := setRange_request s.m_tx_buffer buffer t1 t2 hb
    have hlast : s.m_last_tx_buffer = ⟨s.m_last_tx_buffer.data, 512⟩ := by
      rw [← l2]
    have heq := TransmitBuffer_eq s adaptor buffer _ s.m_last_tx_buffer.data hlen l1 hset hlast
    refine ⟨_, heq, rfl, fun t ht => ?_⟩
    obtain ⟨k, hk, hpk⟩ := passSpec_wire_chunks adaptor _ _ _ t ht
    exact ⟨k, by omega, by rw [hpk]; simp [chunk]⟩
  · intro packet evs m hp hrun
    have hinv := run_inv evs (AsyncMachine.init packet) m (asyncInv_init packet hp) hrun
    refine ⟨fun hlt => ?_, fun pending ret t ht => ?_, fun buffer ret t ht => ?_⟩
    · obtain ⟨_, h2, h3, _⟩ := ContinueTransfer_shape m.sender 0 hinv hlt
      exact ⟨h2, hinv.2.1, h3⟩
    · by_cases hlt : m.sender.m_buffer_offset < m.sender.m_tx_buffer.Size
      · obtain ⟨_, _, h3, _, p, hw, hp0⟩ := ContinueTransfer_shape m.sender ret hinv hlt
        unfold PostTransferHook at ht
        rw [if_pos hlt] at ht
        simp only [hw, List.mem_singleton] at ht
        subst ht
        exact ⟨_, h3, hp0⟩
      · rw [(PostTransferHook_last m.sender pending ret (by omega)).1] at ht
        exact absurd ht (List.not_mem_nil t)
    · unfold PerformTransfer at ht
      by_cases hoff : m.sender.m_buffer_offset = 0
      · rw [if_pos hoff] at ht
        obtain ⟨_, _, p, hw, hp0⟩ := SendInitialChunk_shape m.sender buffer ret hinv hoff
        simp only [hw, List.mem_singleton] at ht
        subst ht
        exact hp0
      · rw [if_neg hoff] at ht
        exact absurd ht (List.not_mem_nil t)
  · intro mode ret c hc
    simp only [SetInterfaceMode, List.mem_singleton] at hc
    subst hc
    rfl

/-- C22, at the asynchronous sender after a first accepted request. -/
theorem C22_index_byte_below_16_witness :
    ∃ m, (AsyncMachine.init (List.replicate 33 0)).run
        [AsyncEvent.request (DmxBuffer.ofFrame frameA) 0] = some m
      ∧ (m.sender.m_buffer_offset < m.sender.m_tx_buffer.Size →
          m.sender.m_buffer_offset % 32 = 0 ∧ m.sender.m_tx_buffer.Size ≤ 512
          ∧ m.sender.m_buffer_offset / 32 ≤ 15) :=
  ⟨_, rfl, (C22_index_byte_below_16.2.1 (List.replicate 33 0)
    [AsyncEvent.request (DmxBuffer.ofFrame frameA) 0] _ (by decide) rfl).1⟩

/-- C23 (what the code does): `SendInitialChunk` and `ContinueTransfer`
return `SendChunk() == 0`, which is true exactly when `SendChunk` returned
false. With the submission accepted (`SubmitTransfer` returns 0)
`PerformTransfer` at offset 0 and `ContinueTransfer` return false, and with
the submission refused they return true. -/
theorem C23_return_value_is_inverted (s : NodleU1AsyncUsbSender) (buffer : DmxBuffer)
    (ret : Int) :
    (s.SendInitialChunk buffer ret).1 = !(s.SendChunk ret).1
    ∧ (s.ContinueTransfer ret).1 = !(s.SendChunk ret).1
    ∧ ((s.SendChunk ret).1 = true ↔ ret = 0)
    ∧ ((NodleU1AsyncUsbSender.new (List.replicate 33 0)).PerformTransfer
          (DmxBuffer.ofFrame frameA) 0).1 = false
    ∧ accepted ((NodleU1AsyncUsbSender.new (List.replicate 33 0)).PerformTransfer
          (DmxBuffer.ofFrame frameA) 0).2.2 = 1
    ∧ ((NodleU1AsyncUsbSender.new (List.replicate 33 0)).PerformTransfer
          (DmxBuffer.ofFrame frameA) (-1)).1 = true
    ∧ accepted ((NodleU1AsyncUsbSender.new (List.replicate 33 0)).PerformTransfer
          (DmxBuffer.ofFrame frameA) (-1)).2.2 = 0
    ∧ (shortCycleSender.ContinueTransfer 0).1 = false
    ∧ (shortCycleSender.ContinueTransfer (-1)).1 = true := by
  refine ⟨?_, ?_, ?_, by decide, by decide, by decide, by decide, by decide, by decide⟩
  · unfold SendInitialChunk SendChunk
    cases (ret == 0) <;> rfl
  · unfold ContinueTransfer SendChunk
    cases (ret == 0) <;> rfl
  · simp [SendChunk]

end NodleU1
